import Mathlib

/-! SQLite statement wrapper (`src/SQLiteStmt.cpp`)

A shallow embedding of `SQLite::Stmt`, `SQLite::Finalizer` and `SQLite::Resetter`.

* The statement object is the record `Stmt`; its members keep the names of the source
  (`ok`, `result`, `done`, `stmt`, `query`, `tail`, `owner`).  The specification calls the
  three booleans `prepared` (`ok`), `hasRow` (`result`) and `exhausted` (`done`).
* The native library is an environment: every native call that the code performs is
  appended to a chronological log (`List Call`), and its return value is given by an
  arbitrary function of the log so far and of the arguments (`Native`).
* A C++ member function that may throw becomes a function returning an `Outcome`:
  the result (`Except Exception α`) together with the statement and the log as the call
  left them, so that the state reached before a `throw` is kept.
* `CHKTHROW` is compiled in only when `NDEBUG` is not defined; the build flag is the
  parameter `ndebug`.
-/

namespace SQLite

/-! ## Native layer -/

/-- The null pointer. -/
def NULL : Nat := 0

/-- Native result code `SQLITE_OK`. -/
def SQLITE_OK : Int := 0
/-- Native result code `SQLITE_MISUSE`. -/
def SQLITE_MISUSE : Int := 21
/-- Native result code `SQLITE_ROW`. -/
def SQLITE_ROW : Int := 100
/-- Native result code `SQLITE_DONE`. -/
def SQLITE_DONE : Int := 101

/-- Modelled from the spec: the transaction kind `Trans::TransactionType`, declared in the
absent header `SQLite.h` ("deferred/immediate/exclusive"). -/
inductive TransactionType
  | deferred
  | immediate
  | exclusive
  deriving DecidableEq, Repr

/-- The value handed to one of the six `Stmt::bind` overloads: `bind(idx)`,
`bind(idx, int)`, `bind(idx, __int64)`, `bind(idx, double)`, `bind(idx, string)` and
`bind(idx, void*, length)`.  A double is carried as its bit pattern; it is only passed
through to the native layer. -/
inductive BindValue
  | null
  | int (value : Int)
  | int64 (value : Int)
  | double (bits : Nat)
  | text (value : String)
  | blob (value : List Nat)
  deriving DecidableEq, Repr

/-- One call into the native layer, with its arguments. `bind` stands for
`sqlite3_bind_null/int/int64/double/text/blob`, chosen by the kind of the value. The three
`trans_` calls are the ones issued by the `Trans` collaborator on the connection. -/
inductive Call
  | prepare_v2 (ctx : Nat) (query : String)
  | reset (stmt : Nat)
  | finalize (stmt : Nat)
  | bind (stmt : Nat) (idx : Nat) (value : BindValue)
  | column_count (stmt : Nat)
  | step (stmt : Nat)
  | trans_begin (ctx : Nat) (aType : TransactionType)
  | trans_commit (ctx : Nat)
  | trans_rollback (ctx : Nat)
  deriving DecidableEq, Repr

/-- The native library as an environment. Each function receives the log of the native
calls made so far and the arguments of the present call. `sqlite3_prepare_v2` yields the
result code, the handle it stores through `&stmt` and the tail pointer (`none` for a null
`pTail`); `errdetail` is what `Exception(owner.ctx)` reads from the connection. -/
structure Native where
  sqlite3_prepare_v2 : List Call → Nat → String → Int × Nat × Option String
  sqlite3_reset : List Call → Nat → Int
  sqlite3_bind : List Call → Nat → Nat → BindValue → Int
  sqlite3_column_count : List Call → Nat → Int
  sqlite3_step : List Call → Nat → Int
  errdetail : List Call → Nat → Int × String

/-! ## Failures -/

/-- Modelled from the spec: the failure type `SQLite::Exception`, declared in the absent
header `SQLite.h`: "carrying either a native error code plus message, or a descriptive
string". The three constructors are the three ways the source builds one:
`Exception(owner.ctx)`, `Exception("...")` and `Exception(rv)`. -/
inductive Exception
  | ofCtx (code : Int) (msg : String)
  | ofMessage (msg : String)
  | ofCode (rv : Int)
  deriving DecidableEq, Repr

/-- The failure the specification calls `NotPreparedError`. -/
def NotPreparedError : Exception := .ofMessage "Statement unprepared!"
/-- The failure the specification calls `AlreadyDoneError`. -/
def AlreadyDoneError : Exception := .ofMessage "Statement already done!"
/-- The failure the specification calls `NoResultError`. -/
def NoResultError : Exception := .ofMessage "No Result!"

/-- `Exception(owner.ctx)`: the connection's error detail after the calls in `log`. The
specification calls it `PrepareError`, `BindError`, `StepError` or `ResetError` after the
operation that raised it. -/
def ctxException (N : Native) (log : List Call) (ctx : Nat) : Exception :=
  .ofCtx (N.errdetail log ctx).1 (N.errdetail log ctx).2

/-! ## The statement -/

/-- The members of `SQLite::Stmt`, preceded by `self`, the address of the object (the
value of `this` inside a member function). -/
structure Stmt where
  self : Nat
  owner : Nat
  query : String
  tail : String
  stmt : Nat
  ok : Bool
  result : Bool
  done : Bool
  deriving DecidableEq, Repr

/-- The flag the specification calls `prepared`. -/
def Stmt.prepared (s : Stmt) : Bool := s.ok
/-- The flag the specification calls `hasRow`. -/
def Stmt.hasRow (s : Stmt) : Bool := s.result
/-- The flag the specification calls `exhausted`. -/
def Stmt.exhausted (s : Stmt) : Bool := s.done

/-- Modelled from the spec: the accessor `SQLite::Data`, declared in the absent header
`SQLite.h`: "back-reference to the owning Statement (non-owning), column index". The
source builds it as `Data(this, idx)`: nothing of the row is copied or decoded. -/
structure Data where
  self : Nat
  idx : Nat
  deriving DecidableEq, Repr

/-- What a member function leaves behind: its result or the exception it threw, the
statement and the log of native calls. -/
structure Outcome (α : Type) where
  res : Except Exception α
  s : Stmt
  log : List Call

/-- The macro `CHKTHROW`: `if (!ok) { throw Exception("Statement unprepared!"); }` when
`NDEBUG` is not defined, and empty otherwise. `some e` means that `e` is thrown. -/
def CHKTHROW (ndebug : Bool) (s : Stmt) : Option Exception :=
  if ndebug then none
  else if !s.ok then some (.ofMessage "Statement unprepared!")
  else none

/-- The macro `SQLOK(x)`: `if (SQLITE_OK != x) throw Exception(owner.ctx);`, where `log` is
the log after the native call `x`. -/
def SQLOK (N : Native) (log : List Call) (s : Stmt) (x : Int) : Option Exception :=
  if SQLITE_OK ≠ x then some (ctxException N log s.owner) else none

/-- The member function `Stmt::prepare`. -/
def Stmt.prepare (N : Native) (s : Stmt) (log : List Call) : Outcome Unit :=
  let s1 := { s with done := false, ok := false, result := false }
  let r := N.sqlite3_prepare_v2 log s1.owner s1.query
  let log1 := log ++ [Call.prepare_v2 s1.owner s1.query]
  let s2 := { s1 with stmt := r.2.1 }
  if r.1 ≠ SQLITE_OK then
    ⟨.error (ctxException N log1 s2.owner), s2, log1⟩
  else
    let s3 := { s2 with ok := true }
    match r.2.2 with
    | some pTail => ⟨.ok (), { s3 with tail := pTail }, log1⟩
    | none => ⟨.ok (), s3, log1⟩

/-- The member function `Stmt::reset`. -/
def Stmt.reset (N : Native) (ndebug : Bool) (s : Stmt) (log : List Call) : Outcome Unit :=
  let s1 := { s with result := false, done := false }
  match CHKTHROW ndebug s1 with
  | some e => ⟨.error e, s1, log⟩
  | none =>
    let log1 := log ++ [Call.reset s1.stmt]
    match SQLOK N log1 s1 (N.sqlite3_reset log s1.stmt) with
    | some e => ⟨.error e, s1, log1⟩
    | none => ⟨.ok (), s1, log1⟩

/-- The member function `Stmt::finalize`. The result of `sqlite3_finalize` is discarded. -/
def Stmt.finalize (s : Stmt) (log : List Call) : Outcome Unit :=
  if s.ok then
    ⟨.ok (), { s with stmt := NULL, result := false, done := false, ok := false },
      log ++ [Call.finalize s.stmt]⟩
  else
    ⟨.ok (), { s with result := false, done := false, ok := false }, log⟩

/-- The member functions `Stmt::bind`, one overload for each kind of `BindValue`:
`CHKTHROW; SQLOK(sqlite3_bind_...(stmt, idx, ...));`. -/
def Stmt.bind (N : Native) (ndebug : Bool) (idx : Nat) (value : BindValue)
    (s : Stmt) (log : List Call) : Outcome Unit :=
  match CHKTHROW ndebug s with
  | some e => ⟨.error e, s, log⟩
  | none =>
    let log1 := log ++ [Call.bind s.stmt idx value]
    match SQLOK N log1 s (N.sqlite3_bind log s.stmt idx value) with
    | some e => ⟨.error e, s, log1⟩
    | none => ⟨.ok (), s, log1⟩

/-- The member function `Stmt::getColumnCount`. The count is returned as the native
`int`, which is not negative on this path. -/
def Stmt.getColumnCount (N : Native) (ndebug : Bool) (s : Stmt) (log : List Call) :
    Outcome Int :=
  match CHKTHROW ndebug s with
  | some e => ⟨.error e, s, log⟩
  | none =>
    let rv := N.sqlite3_column_count log s.stmt
    let log1 := log ++ [Call.column_count s.stmt]
    if rv < 0 then ⟨.error (.ofCode rv), s, log1⟩
    else ⟨.ok rv, s, log1⟩

/-- The member function `Stmt::next`. -/
def Stmt.next (N : Native) (ndebug : Bool) (s : Stmt) (log : List Call) : Outcome Bool :=
  match CHKTHROW ndebug s with
  | some e => ⟨.error e, s, log⟩
  | none =>
    if s.done then
      ⟨.error (.ofMessage "Statement already done!"), s, log⟩
    else
      let err := N.sqlite3_step log s.stmt
      let log1 := log ++ [Call.step s.stmt]
      if err = SQLITE_DONE then
        ⟨.ok false, { s with done := true, result := false }, log1⟩
      else if err = SQLITE_ROW then
        ⟨.ok true, { s with result := true }, log1⟩
      else
        ⟨.error (ctxException N log1 s.owner), s, log1⟩

/-- Modelled from the spec: the member function `Stmt::execute`, defined in the absent
header `SQLite.h`: "equivalent to calling `next()` once and discarding the boolean
result; still subject to the same preconditions/failures as `next()`". -/
def Stmt.execute (N : Native) (ndebug : Bool) (s : Stmt) (log : List Call) : Outcome Unit :=
  let r := Stmt.next N ndebug s log
  match r.res with
  | .error e => ⟨.error e, r.s, r.log⟩
  | .ok _ => ⟨.ok (), r.s, r.log⟩

/-- The member function `Stmt::value`. -/
def Stmt.value (ndebug : Bool) (idx : Nat) (s : Stmt) (log : List Call) : Outcome Data :=
  match CHKTHROW ndebug s with
  | some e => ⟨.error e, s, log⟩
  | none =>
    if s.done then
      ⟨.error (.ofMessage "Statement already done!"), s, log⟩
    else if !s.result then
      ⟨.error (.ofMessage "No Result!"), s, log⟩
    else
      ⟨.ok ⟨s.self, idx⟩, s, log⟩

/-- The constructor `Stmt::Stmt(DB& aOwner, const string& aQuery)`, for the object at
address `self`: `owner(aOwner), query(aQuery), stmt(NULL)`, then `prepare()`. The string
member `tail` starts empty; the three flags are first written by `prepare()`. -/
def Stmt.ctor (N : Native) (self aOwner : Nat) (aQuery : String) (log : List Call) :
    Outcome Unit :=
  Stmt.prepare N ⟨self, aOwner, aQuery, "", NULL, false, false, false⟩ log

/-- The copy constructor `Stmt::Stmt(const Stmt& c)`, for the object at address `self`. -/
def Stmt.copy (N : Native) (self : Nat) (c : Stmt) (log : List Call) : Outcome Unit :=
  Stmt.prepare N ⟨self, c.owner, c.query, "", NULL, false, false, false⟩ log

/-- The copy assignment `Stmt::operator=`. -/
def Stmt.assign (N : Native) (c : Stmt) (s : Stmt) (log : List Call) : Outcome Unit :=
  let s1 := { s with owner := c.owner, query := c.query }
  let f := Stmt.finalize s1 log
  match f.res with
  | .error e => ⟨.error e, f.s, f.log⟩
  | .ok _ => Stmt.prepare N f.s f.log

/-! ## Scoped guards -/

/-- The constructor `Finalizer::Finalizer(Stmt&)`: `execute()`, and on an exception
`finalize()` inside its own `try`/`catch`, then `throw;` of the first exception. -/
def Finalizer.ctor (N : Native) (ndebug : Bool) (s : Stmt) (log : List Call) :
    Outcome Unit :=
  let x := Stmt.execute N ndebug s log
  match x.res with
  | .ok _ => ⟨.ok (), x.s, x.log⟩
  | .error e =>
    let f := Stmt.finalize x.s x.log
    match f.res with
    | .ok _ => ⟨.error e, f.s, f.log⟩
    | .error _ => ⟨.error e, f.s, f.log⟩

/-- The destructor `Finalizer::~Finalizer()`: `finalize()` with any exception caught. -/
def Finalizer.dtor (s : Stmt) (log : List Call) : Outcome Unit :=
  let f := Stmt.finalize s log
  match f.res with
  | .ok _ => ⟨.ok (), f.s, f.log⟩
  | .error _ => ⟨.ok (), f.s, f.log⟩

/-- The constructor `Resetter::Resetter(Stmt&)`: an empty body. -/
def Resetter.ctor (s : Stmt) (log : List Call) : Outcome Unit :=
  ⟨.ok (), s, log⟩

/-- The destructor `Resetter::~Resetter()`: `reset()` with any exception caught. -/
def Resetter.dtor (N : Native) (ndebug : Bool) (s : Stmt) (log : List Call) :
    Outcome Unit :=
  let r := Stmt.reset N ndebug s log
  match r.res with
  | .ok _ => ⟨.ok (), r.s, r.log⟩
  | .error _ => ⟨.ok (), r.s, r.log⟩

/-! ## Batch execution -/

/-- Modelled from the spec: one round of the batch data source `DataItr`, declared in the
absent header `SQLite.h` ("ask the external iterator for the next record; if none, stop",
"the iterator binds that record's fields onto the statement's parameters", "a failure
... from the iterator itself"). Either `dp.next()` throws, or it returns true and
`dp.bind(stmt)` calls `Stmt::bind` for each listed parameter in turn and then, when
`thenThrows` is `some e`, throws `e` itself. -/
inductive ItrStep
  | nextThrows (e : Exception)
  | record (binds : List (Nat × BindValue)) (thenThrows : Option Exception)
  deriving DecidableEq, Repr

/-- Modelled from the spec: the batch data source `DataItr` as the finite sequence of its
rounds; once the sequence is used up `dp.next()` returns false. -/
abbrev DataItr := List ItrStep

/-- The call `dp.bind(*this)` for one record: the listed `Stmt::bind` calls in order, the
first exception propagating, then the iterator's own exception if it has one. -/
def DataItr.bind (N : Native) (ndebug : Bool) :
    List (Nat × BindValue) → Option Exception → Stmt → List Call → Outcome Unit
  | [], none, s, log => ⟨.ok (), s, log⟩
  | [], some e, s, log => ⟨.error e, s, log⟩
  | b :: rest, thenThrows, s, log =>
    let r := Stmt.bind N ndebug b.1 b.2 s log
    match r.res with
    | .error e => ⟨.error e, r.s, r.log⟩
    | .ok _ => DataItr.bind N ndebug rest thenThrows r.s r.log

/-- The loop of `Stmt::executeMany`: `while (dp.next()) { dp.bind(*this); execute(); }`. -/
def Stmt.executeManyLoop (N : Native) (ndebug : Bool) :
    DataItr → Stmt → List Call → Outcome Unit
  | [], s, log => ⟨.ok (), s, log⟩
  | .nextThrows e :: _, s, log => ⟨.error e, s, log⟩
  | .record binds thenThrows :: rest, s, log =>
    let b := DataItr.bind N ndebug binds thenThrows s log
    match b.res with
    | .error e => ⟨.error e, b.s, b.log⟩
    | .ok _ =>
      let x := Stmt.execute N ndebug b.s b.log
      match x.res with
      | .error e => ⟨.error e, x.s, x.log⟩
      | .ok _ => Stmt.executeManyLoop N ndebug rest x.s x.log

/-- The member function `Stmt::executeMany`. Modelled from the spec: the collaborator
`Trans`, declared in the absent header `SQLite.h`: it "begins a transaction at
construction; if destroyed without an explicit `commit()`, it rolls back". Its three
actions on the connection are logged as `trans_begin`, `trans_commit` and
`trans_rollback`. -/
def Stmt.executeMany (N : Native) (ndebug : Bool) (dp : DataItr) (aType : TransactionType)
    (s : Stmt) (log : List Call) : Outcome Unit :=
  let l := Stmt.executeManyLoop N ndebug dp s (log ++ [Call.trans_begin s.owner aType])
  match l.res with
  | .error e => ⟨.error e, l.s, l.log ++ [Call.trans_rollback s.owner]⟩
  | .ok _ =>
    let f := Stmt.finalize l.s l.log
    match f.res with
    | .error e => ⟨.error e, f.s, f.log ++ [Call.trans_rollback s.owner]⟩
    | .ok _ => ⟨.ok (), f.s, f.log ++ [Call.trans_commit s.owner]⟩

/-! ## Call sequences -/

/-- The state of a statement at a point of a run: the object and the log. -/
abbrev State := Stmt × List Call

/-- The state an outcome leaves. -/
def Outcome.state {α : Type} (o : Outcome α) : State := (o.s, o.log)

/-- Calls a caller may make between two `next()` calls without resetting the statement. -/
inductive Probe
  | bind (idx : Nat) (value : BindValue)
  | getColumnCount
  | value (idx : Nat)
  | next
  deriving DecidableEq, Repr

/-- The state after one probing call, whether it returned or threw. -/
def Probe.run (N : Native) (ndebug : Bool) (p : Probe) (st : State) : State :=
  match p with
  | .bind i v => (Stmt.bind N ndebug i v st.1 st.2).state
  | .getColumnCount => (Stmt.getColumnCount N ndebug st.1 st.2).state
  | .value i => (Stmt.value ndebug i st.1 st.2).state
  | .next => (Stmt.next N ndebug st.1 st.2).state

/-- The state after a sequence of probing calls, each exception being caught by the
caller. -/
def Probe.runAll (N : Native) (ndebug : Bool) (ps : List Probe) (st : State) : State :=
  ps.foldl (fun acc p => Probe.run N ndebug p acc) st

/-- The state after `n` successive calls of `finalize()`. -/
def Stmt.finalizeTimes (n : Nat) (st : State) : State :=
  Nat.iterate (fun x => (Stmt.finalize x.1 x.2).state) n st

/-! ## Worked environments -/

/-- The number of `sqlite3_step` calls in a log. -/
def stepCount (log : List Call) : Nat :=
  (log.filter (fun c => match c with | .step _ => true | _ => false)).length

/-- A native layer for worked examples. A bind or a step on the null handle is refused
with `SQLITE_MISUSE` and a reset of the null handle returns `SQLITE_OK`, as the library
does. On any other handle `sqlite3_bind_*` succeeds, `sqlite3_reset` returns `resetCode`,
there is one column, and the `k`-th `sqlite3_step` (counting the steps already in the
log) returns `steps[k]`, `SQLITE_DONE` beyond the end of `steps`. `sqlite3_prepare_v2`
compiles every query to the handle `7` with no tail. -/
def scripted (steps : List Int) (resetCode : Int) : Native where
  sqlite3_prepare_v2 := fun _ _ _ => (SQLITE_OK, 7, none)
  sqlite3_reset := fun _ h => if h = NULL then SQLITE_OK else resetCode
  sqlite3_bind := fun _ h _ _ => if h = NULL then SQLITE_MISUSE else SQLITE_OK
  sqlite3_column_count := fun _ _ => 1
  sqlite3_step := fun log h =>
    if h = NULL then SQLITE_MISUSE else steps.getD (stepCount log) SQLITE_DONE
  errdetail := fun _ _ => (1, "native error")

/-- A prepared statement `INSERT INTO t(a) VALUES (?)` on handle `7`, with the given
`result` and `done` flags. -/
def insertStmt (result done : Bool) : Stmt :=
  ⟨1000, 1, "INSERT INTO t(a) VALUES (?)", "", 7, true, result, done⟩

/-- The statement `insertStmt` after `finalize()`: unprepared, with a null handle. -/
def finalizedStmt : Stmt :=
  ⟨1000, 1, "INSERT INTO t(a) VALUES (?)", "", NULL, false, false, false⟩

/-- An iterator yielding three records, each binding one integer to parameter 1. -/
def threeRecords : DataItr :=
  [.record [(1, .int 10)] none, .record [(1, .int 20)] none, .record [(1, .int 30)] none]

/-- Whether a native call is `sqlite3_finalize`. -/
def Call.isFinalize : Call → Bool
  | .finalize _ => true
  | _ => false

/-- Whether a native call is the commit of a transaction. -/
def Call.isCommit : Call → Bool
  | .trans_commit _ => true
  | _ => false

/-- An outcome reached from statement `s` and log `log` that kept the `ok` flag and the
handle, and only added native calls that are neither `sqlite3_finalize` nor a commit. -/
def Outcome.Keeps {α : Type} (o : Outcome α) (s : Stmt) (log : List Call) : Prop :=
  o.s.ok = s.ok ∧ o.s.stmt = s.stmt ∧
    ∃ added, o.log = log ++ added ∧ ∀ c ∈ added, c.isFinalize = false ∧ c.isCommit = false

/-- A native layer for worked examples of `prepare()`. It behaves as `scripted [] SQLITE_OK`
except for `sqlite3_prepare_v2`, which follows the library: a text without SQL (here the
empty query) compiles with `SQLITE_OK` to a null handle, the malformed query `SELEC` fails
with `SQLITE_ERROR` (code 1) and a null handle, and every other query compiles to the
handle `h`, the tail being what follows the first `;` (here only for the two-statement
query `SELECT 1; SELECT 2`). -/
def compiling (h : Nat) : Native where
  sqlite3_prepare_v2 := fun _ _ q =>
    if q = "" then (SQLITE_OK, NULL, some "")
    else if q = "SELEC" then (1, NULL, none)
    else if q = "SELECT 1; SELECT 2" then (SQLITE_OK, h, some " SELECT 2")
    else (SQLITE_OK, h, some "")
  sqlite3_reset := (scripted [] SQLITE_OK).sqlite3_reset
  sqlite3_bind := (scripted [] SQLITE_OK).sqlite3_bind
  sqlite3_column_count := (scripted [] SQLITE_OK).sqlite3_column_count
  sqlite3_step := (scripted [] SQLITE_OK).sqlite3_step
  errdetail := (scripted [] SQLITE_OK).errdetail

/-- The native layer stores a null handle through `&stmt` whenever `sqlite3_prepare_v2`
does not return `SQLITE_OK`, as the library documents. -/
def Native.NullOnFailure (N : Native) : Prop :=
  ∀ log ctx q, (N.sqlite3_prepare_v2 log ctx q).1 ≠ SQLITE_OK →
    (N.sqlite3_prepare_v2 log ctx q).2.1 = NULL

/-- The native layer stores a handle that is not null whenever `sqlite3_prepare_v2`
returns `SQLITE_OK`. The library does not promise this: a text without SQL compiles to a
null handle. -/
def Native.HandleOnSuccess (N : Native) : Prop :=
  ∀ log ctx q, (N.sqlite3_prepare_v2 log ctx q).1 = SQLITE_OK →
    (N.sqlite3_prepare_v2 log ctx q).2.1 ≠ NULL

/-- The native layer never reports a row or the end of the rows for `sqlite3_step` on the
null handle (the library returns `SQLITE_MISUSE`). -/
def Native.RefusesNullStep (N : Native) : Prop :=
  ∀ log, N.sqlite3_step log NULL ≠ SQLITE_ROW ∧ N.sqlite3_step log NULL ≠ SQLITE_DONE

/-! ## Runs of a statement -/

/-- The calls a caller can make on a constructed statement. -/
inductive Op
  | prepare
  | bind (idx : Nat) (value : BindValue)
  | next
  | execute
  | reset
  | finalize
  | getColumnCount
  | value (idx : Nat)
  | executeMany (dp : DataItr) (aType : TransactionType)
  | assign (c : Stmt)
  deriving DecidableEq, Repr

/-- The state after one call, whether it returned or threw. -/
def Op.run (N : Native) (ndebug : Bool) (op : Op) (st : State) : State :=
  match op with
  | .prepare => (Stmt.prepare N st.1 st.2).state
  | .bind i v => (Stmt.bind N ndebug i v st.1 st.2).state
  | .next => (Stmt.next N ndebug st.1 st.2).state
  | .execute => (Stmt.execute N ndebug st.1 st.2).state
  | .reset => (Stmt.reset N ndebug st.1 st.2).state
  | .finalize => (Stmt.finalize st.1 st.2).state
  | .getColumnCount => (Stmt.getColumnCount N ndebug st.1 st.2).state
  | .value i => (Stmt.value ndebug i st.1 st.2).state
  | .executeMany dp aType => (Stmt.executeMany N ndebug dp aType st.1 st.2).state
  | .assign c => (Stmt.assign N c st.1 st.2).state

/-- The state after a sequence of calls, each exception being caught by the caller. -/
def Op.runAll (N : Native) (ndebug : Bool) (ops : List Op) (st : State) : State :=
  ops.foldl (fun acc op => Op.run N ndebug op acc) st

/-- A scope guarded by a `Finalizer`: the constructor, then, if it returned, the calls of
`body` on the statement and the destructor. The scope ends normally or, when `thrown` is
`some e`, by the exception `e` leaving the body; the destructor runs in both cases. When
the constructor throws there is no guard object, and neither the body nor the destructor
runs. -/
def Finalizer.scope (N : Native) (ndebug : Bool) (body : List Probe)
    (thrown : Option Exception) (s : Stmt) (log : List Call) : Outcome Unit :=
  let c := Finalizer.ctor N ndebug s log
  match c.res with
  | .error e => ⟨.error e, c.s, c.log⟩
  | .ok _ =>
    let b := Probe.runAll N ndebug body (c.s, c.log)
    let d := Finalizer.dtor b.1 b.2
    match thrown with
    | some e => ⟨.error e, d.s, d.log⟩
    | none => ⟨d.res, d.s, d.log⟩

/-! ## Theorems -/

theorem finalize_res (s : Stmt) (log : List Call) : (Stmt.finalize s log).res = .ok () := by
  unfold Stmt.finalize
  split <;> rfl

theorem finalize_flags (s : Stmt) (log : List Call) :
    (Stmt.finalize s log).s.ok = false ∧ (Stmt.finalize s log).s.result = false ∧
      (Stmt.finalize s log).s.done = false := by
  unfold Stmt.finalize
  split <;> simp

theorem finalize_twice (st : State) :
    (Stmt.finalize (Stmt.finalize st.1 st.2).state.1 (Stmt.finalize st.1 st.2).state.2).state
      = (Stmt.finalize st.1 st.2).state := by
  obtain ⟨s, log⟩ := st
  unfold Stmt.finalize Outcome.state
  cases h : s.ok <;> simp [h]

theorem finalizeTimes_succ (n : Nat) (st : State) :
    Stmt.finalizeTimes (n + 1) st = (Stmt.finalize st.1 st.2).state := by
  induction n with
  | zero => rfl
  | succ k ih =>
    have h : Stmt.finalizeTimes (k + 1 + 1) st
        = Stmt.finalizeTimes (k + 1) (Stmt.finalize st.1 st.2).state := rfl
    rw [h, Stmt.finalizeTimes, Function.iterate_succ_apply]
    have h2 := finalize_twice st
    rw [h2]
    exact ih

/-- C1: `finalize()` is total and idempotent. From every statement state it returns
normally and leaves `prepared`, `hasRow` and `exhausted` false; any number `n + 1` of
successive calls leaves the statement and the log of native calls exactly as one call
does, and that log holds one `sqlite3_finalize` more than before when the statement was
prepared and nothing more when it was not, so the handle is not released a second time. -/
theorem finalize_idempotent_total (s : Stmt) (log : List Call) (n : Nat) :
    (Stmt.finalize s log).res = .ok () ∧
    (Stmt.finalize s log).s.prepared = false ∧
    (Stmt.finalize s log).s.hasRow = false ∧
    (Stmt.finalize s log).s.exhausted = false ∧
    Stmt.finalizeTimes (n + 1) (s, log) = Stmt.finalizeTimes 1 (s, log) ∧
    (Stmt.finalizeTimes (n + 1) (s, log)).2
      = (if s.ok then log ++ [Call.finalize s.stmt] else log) ∧
    (Stmt.finalize (Stmt.finalize s log).s (Stmt.finalize s log).log).res = .ok () ∧
    (Stmt.finalize (Stmt.finalize s log).s (Stmt.finalize s log).log).log
      = (Stmt.finalize s log).log := by
  have hf := finalize_flags s log
  refine ⟨finalize_res s log, hf.1, hf.2.1, hf.2.2, ?_, ?_, finalize_res _ _, ?_⟩
  · rw [finalizeTimes_succ, finalizeTimes_succ]
  · rw [finalizeTimes_succ]
    unfold Stmt.finalize Outcome.state
    cases h : s.ok <;> simp
  · have h2 := finalize_twice (s, log)
    exact congrArg Prod.snd h2

theorem next_false_flags (N : Native) (ndebug : Bool) (s : Stmt) (log : List Call)
    (h : (Stmt.next N ndebug s log).res = .ok false) :
    (Stmt.next N ndebug s log).s.ok = s.ok ∧ (Stmt.next N ndebug s log).s.done = true ∧
      (Stmt.next N ndebug s log).s.result = false := by
  unfold Stmt.next at h ⊢
  cases hc : CHKTHROW ndebug s with
  | some e => simp [hc] at h
  | none =>
    simp only [hc] at h ⊢
    by_cases hd : s.done = true
    · simp [hd] at h
    · by_cases h1 : N.sqlite3_step log s.stmt = SQLITE_DONE
      · simp [hd, h1]
      · by_cases h2 : N.sqlite3_step log s.stmt = SQLITE_ROW
        · have hne : SQLITE_ROW ≠ SQLITE_DONE := by decide
          simp [hd, h2, hne] at h
        · simp [hd, h1, h2] at h

theorem probe_keeps_flags (N : Native) (ndebug : Bool) (p : Probe) (st : State)
    (hok : st.1.ok = true) (hdone : st.1.done = true) :
    (Probe.run N ndebug p st).1 = st.1 := by
  obtain ⟨s, log⟩ := st
  simp only at hok hdone
  cases p with
  | bind i v =>
    simp only [Probe.run, Outcome.state, Stmt.bind, CHKTHROW, hok]
    cases ndebug <;> simp <;> split <;> rfl
  | getColumnCount =>
    simp only [Probe.run, Outcome.state, Stmt.getColumnCount, CHKTHROW, hok]
    cases ndebug <;> simp <;> split <;> rfl
  | value i =>
    simp only [Probe.run, Outcome.state, Stmt.value, CHKTHROW, hok, hdone]
    cases ndebug <;> simp
  | next =>
    simp only [Probe.run, Outcome.state, Stmt.next, CHKTHROW, hok, hdone]
    cases ndebug <;> simp

theorem probes_keep_flags (N : Native) (ndebug : Bool) (ps : List Probe) (st : State)
    (hok : st.1.ok = true) (hdone : st.1.done = true) :
    (Probe.runAll N ndebug ps st).1 = st.1 := by
  induction ps generalizing st with
  | nil => rfl
  | cons p rest ih =>
    have h1 := probe_keeps_flags N ndebug p st hok hdone
    have h2 : Probe.runAll N ndebug (p :: rest) st
        = Probe.runAll N ndebug rest (Probe.run N ndebug p st) := rfl
    rw [h2, ih (Probe.run N ndebug p st) (by rw [h1]; exact hok) (by rw [h1]; exact hdone), h1]

theorem next_when_done (N : Native) (ndebug : Bool) (s : Stmt) (log : List Call)
    (hok : s.ok = true) (hdone : s.done = true) :
    Stmt.next N ndebug s log = ⟨.error AlreadyDoneError, s, log⟩ := by
  simp only [Stmt.next, CHKTHROW, hok, hdone, AlreadyDoneError]
  cases ndebug <;> simp

/-- C2: once `next()` has returned false on a prepared statement, every later `next()`
fails with `AlreadyDoneError`, makes no native call and leaves the statement as it was,
whatever `bind`, `getColumnCount`, `value` and further `next` calls come in between (no
`reset()` among them); the flags stay prepared, not `hasRow`, exhausted throughout. -/
theorem next_after_done_fails (N : Native) (ndebug : Bool) (s : Stmt) (log : List Call)
    (ps : List Probe) (hp : s.prepared = true)
    (h : (Stmt.next N ndebug s log).res = .ok false) :
    Stmt.next N ndebug
        (Probe.runAll N ndebug ps (Stmt.next N ndebug s log).state).1
        (Probe.runAll N ndebug ps (Stmt.next N ndebug s log).state).2
      = ⟨.error AlreadyDoneError,
          (Probe.runAll N ndebug ps (Stmt.next N ndebug s log).state).1,
          (Probe.runAll N ndebug ps (Stmt.next N ndebug s log).state).2⟩ ∧
    (Probe.runAll N ndebug ps (Stmt.next N ndebug s log).state).1.prepared = true ∧
    (Probe.runAll N ndebug ps (Stmt.next N ndebug s log).state).1.hasRow = false ∧
    (Probe.runAll N ndebug ps (Stmt.next N ndebug s log).state).1.exhausted = true := by
  have hf := next_false_flags N ndebug s log h
  have hok : (Stmt.next N ndebug s log).state.1.ok = true := by
    show (Stmt.next N ndebug s log).s.ok = true
    rw [hf.1]; exact hp
  have hdone : (Stmt.next N ndebug s log).state.1.done = true := hf.2.1
  have hk := probes_keep_flags N ndebug ps _ hok hdone
  refine ⟨next_when_done N ndebug _ _ (by rw [hk]; exact hok) (by rw [hk]; exact hdone),
    ?_, ?_, ?_⟩
  · rw [hk]; exact hok
  · rw [hk]; exact hf.2.2
  · rw [hk]; exact hdone

/-- Witness for C2: the statement `INSERT INTO t(a) VALUES (?)` whose first step reports
done, probed by a bind, a column count, a value read and one more `next()`. -/
theorem next_after_done_fails_witness :
    (insertStmt false false).prepared = true ∧
    (Stmt.next (scripted [] SQLITE_OK) false (insertStmt false false) []).res = .ok false ∧
    Stmt.next (scripted [] SQLITE_OK) false
        (Probe.runAll (scripted [] SQLITE_OK) false
          [.bind 1 (.int 5), .getColumnCount, .value 0, .next]
          (Stmt.next (scripted [] SQLITE_OK) false (insertStmt false false) []).state).1
        (Probe.runAll (scripted [] SQLITE_OK) false
          [.bind 1 (.int 5), .getColumnCount, .value 0, .next]
          (Stmt.next (scripted [] SQLITE_OK) false (insertStmt false false) []).state).2
      = ⟨.error AlreadyDoneError,
          (Probe.runAll (scripted [] SQLITE_OK) false
            [.bind 1 (.int 5), .getColumnCount, .value 0, .next]
            (Stmt.next (scripted [] SQLITE_OK) false (insertStmt false false) []).state).1,
          (Probe.runAll (scripted [] SQLITE_OK) false
            [.bind 1 (.int 5), .getColumnCount, .value 0, .next]
            (Stmt.next (scripted [] SQLITE_OK) false (insertStmt false false) []).state).2⟩ :=
  ⟨rfl, rfl,
    (next_after_done_fails (scripted [] SQLITE_OK) false (insertStmt false false) []
      [.bind 1 (.int 5), .getColumnCount, .value 0, .next] rfl rfl).1⟩

theorem chkthrow_prepared (ndebug : Bool) (s : Stmt) (h : s.ok = true) :
    CHKTHROW ndebug s = none := by
  unfold CHKTHROW
  cases ndebug <;> simp [h]

theorem chkthrow_unprepared (s : Stmt) (h : s.ok = false) :
    CHKTHROW false s = some NotPreparedError := by
  simp [CHKTHROW, h, NotPreparedError]

theorem prepare_ok_flags (N : Native) (s : Stmt) (log : List Call)
    (h : (Stmt.prepare N s log).res = .ok ()) :
    (Stmt.prepare N s log).s.ok = true ∧ (Stmt.prepare N s log).s.result = false ∧
      (Stmt.prepare N s log).s.done = false := by
  unfold Stmt.prepare at h ⊢
  by_cases hc : (N.sqlite3_prepare_v2 log s.owner s.query).1 = SQLITE_OK
  · simp only [hc, ne_eq, not_true_eq_false, if_false]
    split <;> simp
  · simp [hc] at h

theorem reset_state (N : Native) (ndebug : Bool) (s : Stmt) (log : List Call) :
    (Stmt.reset N ndebug s log).s = { s with result := false, done := false } := by
  unfold Stmt.reset
  simp only
  split
  · rfl
  · split <;> rfl

/-- C3: on a prepared statement `value(index)` fails with `AlreadyDoneError` when the
statement is exhausted, fails with `NoResultError` when it is neither exhausted nor on a
row, which is the case right after a successful `prepare()` or `reset()`, and otherwise
(`hasRow`) returns the accessor `Data(this, index)`; in each case the statement and the
log of native calls are left untouched. -/
theorem value_contract (N : Native) (ndebug : Bool) (idx : Nat) (s : Stmt) (log : List Call)
    (hp : s.prepared = true) :
    (s.exhausted = true → Stmt.value ndebug idx s log = ⟨.error AlreadyDoneError, s, log⟩) ∧
    (s.exhausted = false → s.hasRow = false →
      Stmt.value ndebug idx s log = ⟨.error NoResultError, s, log⟩) ∧
    (s.exhausted = false → s.hasRow = true →
      Stmt.value ndebug idx s log = ⟨.ok ⟨s.self, idx⟩, s, log⟩) ∧
    ((Stmt.prepare N s log).res = .ok () →
      (Stmt.value ndebug idx (Stmt.prepare N s log).s (Stmt.prepare N s log).log).res
        = .error NoResultError) ∧
    ((Stmt.reset N ndebug s log).res = .ok () →
      (Stmt.value ndebug idx (Stmt.reset N ndebug s log).s (Stmt.reset N ndebug s log).log).res
        = .error NoResultError) := by
  have hp0 : s.ok = true := hp
  have hc := chkthrow_prepared ndebug s hp0
  refine ⟨?_, ?_, ?_, ?_, ?_⟩
  · intro hd
    have hd0 : s.done = true := hd
    simp [Stmt.value, hc, hd0, AlreadyDoneError]
  · intro hd hr
    have hd0 : s.done = false := hd
    have hr0 : s.result = false := hr
    simp [Stmt.value, hc, hd0, hr0, NoResultError]
  · intro hd hr
    have hd0 : s.done = false := hd
    have hr0 : s.result = true := hr
    simp [Stmt.value, hc, hd0, hr0]
  · intro h
    obtain ⟨h1, h2, h3⟩ := prepare_ok_flags N s log h
    simp [Stmt.value, chkthrow_prepared ndebug _ h1, h2, h3, NoResultError]
  · intro _
    have hs := reset_state N ndebug s log
    have h1 : (Stmt.reset N ndebug s log).s.ok = true := by rw [hs]; exact hp0
    have h2 : (Stmt.reset N ndebug s log).s.result = false := by rw [hs]
    have h3 : (Stmt.reset N ndebug s log).s.done = false := by rw [hs]
    simp [Stmt.value, chkthrow_prepared ndebug _ h1, h2, h3, NoResultError]

/-- Witness for C3: the prepared statement positioned on a row, read at column 2. -/
theorem value_contract_witness :
    (insertStmt true false).prepared = true ∧
    Stmt.value false 2 (insertStmt true false) []
      = ⟨.ok ⟨(insertStmt true false).self, 2⟩, insertStmt true false, []⟩ :=
  ⟨rfl, (value_contract (scripted [] SQLITE_OK) false 2 (insertStmt true false) [] rfl).2.2.1
    rfl rfl⟩

/-- C4, counterexample: in a build with `NDEBUG` defined, `bind(1)` on an unprepared
statement does not fail with `NotPreparedError`: it calls `sqlite3_bind_null` on the null
handle and fails with the connection's error detail. -/
theorem unprepared_ndebug_reaches_native :
    finalizedStmt.prepared = false ∧
    (Stmt.bind (scripted [] SQLITE_OK) true 1 .null finalizedStmt []).res
      = .error (.ofCtx 1 "native error") ∧
    (Stmt.bind (scripted [] SQLITE_OK) true 1 .null finalizedStmt []).res
      ≠ .error NotPreparedError ∧
    (Stmt.bind (scripted [] SQLITE_OK) true 1 .null finalizedStmt []).log
      = [Call.bind NULL 1 .null] := by
  refine ⟨rfl, rfl, ?_, rfl⟩
  intro h
  have h2 : (Except.error (Exception.ofCtx 1 "native error") : Except Exception Unit)
      = .error NotPreparedError := h
  injection h2 with h3
  exact absurd h3 (by decide)

/-- C4, amended: in a build where `NDEBUG` is not defined, on a statement with
`prepared = false` each of `bind` (every value kind), `next`, `execute`, `reset`,
`getColumnCount` and `value` fails with `NotPreparedError` and makes no native call. -/
theorem unprepared_fails_in_debug_build (N : Native) (idx : Nat) (value : BindValue)
    (s : Stmt) (log : List Call) (hu : s.prepared = false) :
    Stmt.bind N false idx value s log = ⟨.error NotPreparedError, s, log⟩ ∧
    Stmt.next N false s log = ⟨.error NotPreparedError, s, log⟩ ∧
    (Stmt.execute N false s log).res = .error NotPreparedError ∧
    (Stmt.execute N false s log).log = log ∧
    (Stmt.reset N false s log).res = .error NotPreparedError ∧
    (Stmt.reset N false s log).log = log ∧
    Stmt.getColumnCount N false s log = ⟨.error NotPreparedError, s, log⟩ ∧
    Stmt.value false idx s log = ⟨.error NotPreparedError, s, log⟩ := by
  have hu0 : s.ok = false := hu
  have hc := chkthrow_unprepared s hu0
  have hn : Stmt.next N false s log = ⟨.error NotPreparedError, s, log⟩ := by
    simp [Stmt.next, hc]
  have hr : CHKTHROW false { s with result := false, done := false }
      = some NotPreparedError := chkthrow_unprepared _ hu0
  refine ⟨?_, hn, ?_, ?_, ?_, ?_, ?_, ?_⟩
  · simp [Stmt.bind, hc]
  · simp [Stmt.execute, hn]
  · simp [Stmt.execute, hn]
  · simp [Stmt.reset, hr]
  · simp [Stmt.reset, hr]
  · simp [Stmt.getColumnCount, hc]
  · simp [Stmt.value, hc]

/-- Witness for C4: the finalized statement in a build without `NDEBUG`. -/
theorem unprepared_fails_in_debug_build_witness :
    finalizedStmt.prepared = false ∧
    Stmt.next (scripted [] SQLITE_OK) false finalizedStmt []
      = ⟨.error NotPreparedError, finalizedStmt, []⟩ :=
  ⟨rfl, (unprepared_fails_in_debug_build (scripted [] SQLITE_OK) 1 .null finalizedStmt []
    rfl).2.1⟩

/-- C5, the code at the claim's own scenario: three records, every bind succeeding and
every native step reporting done. The first `execute()` sets `done`; the second record is
bound and its `execute()` throws "Statement already done!" before any second native step.
`executeMany` fails, the statement is not finalized and the transaction is rolled back,
in a build without `NDEBUG` and in one with it. -/
theorem executeMany_three_done_records :
    (Stmt.executeMany (scripted [] SQLITE_OK) false threeRecords .deferred
        (insertStmt false false) []).res = .error AlreadyDoneError ∧
    (Stmt.executeMany (scripted [] SQLITE_OK) false threeRecords .deferred
        (insertStmt false false) []).log
      = [Call.trans_begin 1 .deferred, Call.bind 7 1 (.int 10), Call.step 7,
          Call.bind 7 1 (.int 20), Call.trans_rollback 1] ∧
    (Stmt.executeMany (scripted [] SQLITE_OK) false threeRecords .deferred
        (insertStmt false false) []).s = insertStmt false true ∧
    (Stmt.executeMany (scripted [] SQLITE_OK) true threeRecords .deferred
        (insertStmt false false) []).res = .error AlreadyDoneError ∧
    stepCount (Stmt.executeMany (scripted [] SQLITE_OK) true threeRecords .deferred
        (insertStmt false false) []).log = 1 :=
  ⟨rfl, rfl, rfl, rfl, rfl⟩

theorem keeps_refl {α : Type} (r : Except Exception α) (s : Stmt) (log : List Call) :
    (Outcome.mk r s log).Keeps s log :=
  ⟨rfl, rfl, [], by simp, by simp⟩

theorem keeps_one {α : Type} (r : Except Exception α) (s s1 : Stmt) (log : List Call)
    (c : Call) (h1 : s1.ok = s.ok) (h2 : s1.stmt = s.stmt) (hf : c.isFinalize = false)
    (hc : c.isCommit = false) : (Outcome.mk r s1 (log ++ [c])).Keeps s log := by
  refine ⟨h1, h2, [c], rfl, ?_⟩
  intro d hd
  rw [List.mem_singleton] at hd
  subst hd
  exact ⟨hf, hc⟩

theorem keeps_trans {α β : Type} (o : Outcome α) (p : Outcome β) (s : Stmt) (log : List Call)
    (h1 : o.Keeps s log) (h2 : p.Keeps o.s o.log) : p.Keeps s log := by
  obtain ⟨a1, a2, l1, a3, a4⟩ := h1
  obtain ⟨b1, b2, l2, b3, b4⟩ := h2
  refine ⟨b1.trans a1, b2.trans a2, l1 ++ l2, ?_, ?_⟩
  · rw [b3, a3, List.append_assoc]
  · intro c hc
    rcases List.mem_append.mp hc with h | h
    · exact a4 c h
    · exact b4 c h

theorem keeps_res {α β : Type} (o : Outcome α) (r : Except Exception β) (s : Stmt)
    (log : List Call) (h : o.Keeps s log) : (Outcome.mk r o.s o.log).Keeps s log := h

theorem bind_keeps (N : Native) (ndebug : Bool) (idx : Nat) (v : BindValue) (s : Stmt)
    (log : List Call) : (Stmt.bind N ndebug idx v s log).Keeps s log := by
  unfold Stmt.bind
  split
  · exact keeps_refl _ s log
  · simp only
    split <;> exact keeps_one _ s s log _ rfl rfl rfl rfl

theorem next_keeps (N : Native) (ndebug : Bool) (s : Stmt) (log : List Call) :
    (Stmt.next N ndebug s log).Keeps s log := by
  unfold Stmt.next
  split
  · exact keeps_refl _ s log
  · split
    · exact keeps_refl _ s log
    · simp only
      split
      · exact keeps_one _ s _ log _ rfl rfl rfl rfl
      · split <;> exact keeps_one _ s _ log _ rfl rfl rfl rfl

theorem execute_keeps (N : Native) (ndebug : Bool) (s : Stmt) (log : List Call) :
    (Stmt.execute N ndebug s log).Keeps s log := by
  unfold Stmt.execute
  simp only
  split <;> exact keeps_res _ _ s log (next_keeps N ndebug s log)

theorem dataItr_bind_keeps (N : Native) (ndebug : Bool) (binds : List (Nat × BindValue))
    (t : Option Exception) (s : Stmt) (log : List Call) :
    (DataItr.bind N ndebug binds t s log).Keeps s log := by
  induction binds generalizing s log with
  | nil => cases t <;> exact keeps_refl _ s log
  | cons b rest ih =>
    unfold DataItr.bind
    simp only
    split
    · exact keeps_res _ _ s log (bind_keeps N ndebug b.1 b.2 s log)
    · exact keeps_trans _ _ s log (bind_keeps N ndebug b.1 b.2 s log) (ih _ _)

theorem loop_keeps (N : Native) (ndebug : Bool) (dp : DataItr) (s : Stmt) (log : List Call) :
    (Stmt.executeManyLoop N ndebug dp s log).Keeps s log := by
  induction dp generalizing s log with
  | nil => exact keeps_refl _ s log
  | cons ev rest ih =>
    cases ev with
    | nextThrows e => exact keeps_refl _ s log
    | record binds t =>
      unfold Stmt.executeManyLoop
      simp only
      have hb := dataItr_bind_keeps N ndebug binds t s log
      split
      · exact keeps_res _ _ s log hb
      · have hx := keeps_trans _ _ s log hb (execute_keeps N ndebug _ _)
        split
        · exact keeps_res _ _ s log hx
        · exact keeps_trans _ _ s log hx (ih _ _)

theorem loop_record_bind_error (N : Native) (ndebug : Bool) (binds : List (Nat × BindValue))
    (t : Option Exception) (rest : DataItr) (s : Stmt) (log : List Call) (e : Exception)
    (hb : (DataItr.bind N ndebug binds t s log).res = .error e) :
    Stmt.executeManyLoop N ndebug (.record binds t :: rest) s log
      = ⟨.error e, (DataItr.bind N ndebug binds t s log).s,
          (DataItr.bind N ndebug binds t s log).log⟩ := by
  rw [Stmt.executeManyLoop]
  simp only [hb]

theorem loop_record_execute_error (N : Native) (ndebug : Bool)
    (binds : List (Nat × BindValue)) (t : Option Exception) (rest : DataItr) (s : Stmt)
    (log : List Call) (e : Exception)
    (hb : (DataItr.bind N ndebug binds t s log).res = .ok ())
    (hx : (Stmt.execute N ndebug (DataItr.bind N ndebug binds t s log).s
      (DataItr.bind N ndebug binds t s log).log).res = .error e) :
    Stmt.executeManyLoop N ndebug (.record binds t :: rest) s log
      = ⟨.error e,
          (Stmt.execute N ndebug (DataItr.bind N ndebug binds t s log).s
            (DataItr.bind N ndebug binds t s log).log).s,
          (Stmt.execute N ndebug (DataItr.bind N ndebug binds t s log).s
            (DataItr.bind N ndebug binds t s log).log).log⟩ := by
  rw [Stmt.executeManyLoop]
  simp only [hb, hx]

theorem loop_record_ok (N : Native) (ndebug : Bool) (binds : List (Nat × BindValue))
    (t : Option Exception) (rest : DataItr) (s : Stmt) (log : List Call)
    (hb : (DataItr.bind N ndebug binds t s log).res = .ok ())
    (hx : (Stmt.execute N ndebug (DataItr.bind N ndebug binds t s log).s
      (DataItr.bind N ndebug binds t s log).log).res = .ok ()) :
    Stmt.executeManyLoop N ndebug (.record binds t :: rest) s log
      = Stmt.executeManyLoop N ndebug rest
          (Stmt.execute N ndebug (DataItr.bind N ndebug binds t s log).s
            (DataItr.bind N ndebug binds t s log).log).s
          (Stmt.execute N ndebug (DataItr.bind N ndebug binds t s log).s
            (DataItr.bind N ndebug binds t s log).log).log := by
  rw [Stmt.executeManyLoop]
  simp only [hb, hx]

theorem loop_nil (N : Native) (ndebug : Bool) (s : Stmt) (log : List Call) :
    Stmt.executeManyLoop N ndebug [] s log = ⟨.ok (), s, log⟩ := by
  rw [Stmt.executeManyLoop]

theorem loop_cons_error (N : Native) (ndebug : Bool) (ev : ItrStep) (rest : DataItr)
    (s : Stmt) (log : List Call) (e : Exception)
    (h : (Stmt.executeManyLoop N ndebug [ev] s log).res = .error e) :
    Stmt.executeManyLoop N ndebug (ev :: rest) s log
      = Stmt.executeManyLoop N ndebug [ev] s log := by
  cases ev with
  | nextThrows e1 => rw [Stmt.executeManyLoop, Stmt.executeManyLoop]
  | record binds t =>
    cases hb : (DataItr.bind N ndebug binds t s log).res with
    | error e1 =>
      rw [loop_record_bind_error N ndebug binds t rest s log e1 hb,
        loop_record_bind_error N ndebug binds t [] s log e1 hb]
    | ok u =>
      cases hx : (Stmt.execute N ndebug (DataItr.bind N ndebug binds t s log).s
          (DataItr.bind N ndebug binds t s log).log).res with
      | error e2 =>
        rw [loop_record_execute_error N ndebug binds t rest s log e2 hb hx,
          loop_record_execute_error N ndebug binds t [] s log e2 hb hx]
      | ok u2 =>
        rw [loop_record_ok N ndebug binds t [] s log hb hx, loop_nil] at h
        cases h

theorem loop_cons_ok (N : Native) (ndebug : Bool) (ev : ItrStep) (rest : DataItr)
    (s : Stmt) (log : List Call)
    (h : (Stmt.executeManyLoop N ndebug [ev] s log).res = .ok ()) :
    Stmt.executeManyLoop N ndebug (ev :: rest) s log
      = Stmt.executeManyLoop N ndebug rest (Stmt.executeManyLoop N ndebug [ev] s log).s
          (Stmt.executeManyLoop N ndebug [ev] s log).log := by
  cases ev with
  | nextThrows e1 =>
    rw [Stmt.executeManyLoop] at h
    cases h
  | record binds t =>
    cases hb : (DataItr.bind N ndebug binds t s log).res with
    | error e1 =>
      rw [loop_record_bind_error N ndebug binds t [] s log e1 hb] at h
      cases h
    | ok u =>
      cases hx : (Stmt.execute N ndebug (DataItr.bind N ndebug binds t s log).s
          (DataItr.bind N ndebug binds t s log).log).res with
      | error e2 =>
        rw [loop_record_execute_error N ndebug binds t [] s log e2 hb hx] at h
        cases h
      | ok u2 =>
        rw [loop_record_ok N ndebug binds t rest s log hb hx,
          loop_record_ok N ndebug binds t [] s log hb hx, loop_nil]

theorem loop_error_split (N : Native) (ndebug : Bool) (dp : DataItr) (s : Stmt)
    (log : List Call) (e : Exception)
    (h : (Stmt.executeManyLoop N ndebug dp s log).res = .error e) :
    ∃ pre ev post, dp = pre ++ ev :: post ∧
      (Stmt.executeManyLoop N ndebug pre s log).res = .ok () ∧
      (Stmt.executeManyLoop N ndebug [ev] (Stmt.executeManyLoop N ndebug pre s log).s
        (Stmt.executeManyLoop N ndebug pre s log).log).res = .error e ∧
      Stmt.executeManyLoop N ndebug dp s log
        = Stmt.executeManyLoop N ndebug [ev] (Stmt.executeManyLoop N ndebug pre s log).s
            (Stmt.executeManyLoop N ndebug pre s log).log := by
  induction dp generalizing s log with
  | nil =>
    rw [loop_nil] at h
    cases h
  | cons ev rest ih =>
    cases h1 : (Stmt.executeManyLoop N ndebug [ev] s log).res with
    | error e1 =>
      have h2 := loop_cons_error N ndebug ev rest s log e1 h1
      rw [h2] at h
      refine ⟨[], ev, rest, rfl, by rw [loop_nil], by rw [loop_nil]; exact h,
        by rw [loop_nil]; exact h2⟩
    | ok u =>
      have h2 := loop_cons_ok N ndebug ev rest s log h1
      rw [h2] at h
      obtain ⟨pre, ev1, post, hd, hok, herr, heq⟩ := ih _ _ h
      have h3 := loop_cons_ok N ndebug ev pre s log h1
      refine ⟨ev :: pre, ev1, post, by rw [hd]; rfl, ?_, ?_, ?_⟩
      · rw [h3]; exact hok
      · rw [h3]; exact herr
      · rw [h2, h3]; exact heq

/-- Converse direction for batches: when `executeMany` fails with `e`, the iterator splits
as `pre ++ ev :: post` where the rounds of `pre` completed and the round `ev` failed with
that same `e`; the `prepared` flag and handle are as at entry and the native calls added
hold no `sqlite3_finalize` and no commit. -/
theorem executeMany_error_split (N : Native) (ndebug : Bool) (dp : DataItr)
    (aType : TransactionType) (s : Stmt) (log : List Call) (e : Exception)
    (h : (Stmt.executeMany N ndebug dp aType s log).res = .error e) :
    ∃ pre ev post a b, dp = pre ++ ev :: post ∧
      a = Stmt.executeManyLoop N ndebug pre s (log ++ [Call.trans_begin s.owner aType]) ∧
      b = Stmt.executeManyLoop N ndebug [ev] a.s a.log ∧
      a.res = .ok () ∧ b.res = .error e ∧
      (Stmt.executeMany N ndebug dp aType s log).s = b.s ∧
      (Stmt.executeMany N ndebug dp aType s log).log
        = b.log ++ [Call.trans_rollback s.owner] ∧
      (Stmt.executeMany N ndebug dp aType s log).s.prepared = s.prepared ∧
      (Stmt.executeMany N ndebug dp aType s log).s.stmt = s.stmt ∧
      ∃ added, (Stmt.executeMany N ndebug dp aType s log).log = log ++ added ∧
        ∀ c ∈ added, c.isFinalize = false ∧ c.isCommit = false := by
  have hk := loop_keeps N ndebug dp s (log ++ [Call.trans_begin s.owner aType])
  unfold Stmt.executeMany at h ⊢
  simp only at h ⊢
  cases hl : (Stmt.executeManyLoop N ndebug dp s
      (log ++ [Call.trans_begin s.owner aType])).res with
  | ok u =>
    simp only [hl, finalize_res] at h
    cases h
  | error e1 =>
    simp only [hl] at h ⊢
    have he : e1 = e := by
      injection h
    subst he
    obtain ⟨pre, ev, post, hd, hok, herr, heq⟩ := loop_error_split N ndebug dp s _ e1 hl
    obtain ⟨k1, k2, added, k3, k4⟩ := hk
    refine ⟨pre, ev, post, _, _, hd, rfl, rfl, hok, herr, by rw [heq], by rw [heq],
      k1, k2, [Call.trans_begin s.owner aType] ++ added ++ [Call.trans_rollback s.owner],
      ?_, ?_⟩
    · rw [k3]; simp
    · intro c hc
      simp only [List.mem_append, List.mem_singleton] at hc
      rcases hc with (hc | hc) | hc
      · subst hc; exact ⟨rfl, rfl⟩
      · exact k4 c hc
      · subst hc; exact ⟨rfl, rfl⟩

theorem execute_res_error (N : Native) (ndebug : Bool) (s : Stmt) (log : List Call)
    (e : Exception) :
    (Stmt.execute N ndebug s log).res = .error e ↔ (Stmt.next N ndebug s log).res = .error e := by
  unfold Stmt.execute
  simp only
  cases h : (Stmt.next N ndebug s log).res with
  | error e1 => simp
  | ok b => simp

theorem execute_state (N : Native) (ndebug : Bool) (s : Stmt) (log : List Call) :
    (Stmt.execute N ndebug s log).s = (Stmt.next N ndebug s log).s ∧
      (Stmt.execute N ndebug s log).log = (Stmt.next N ndebug s log).log := by
  unfold Stmt.execute
  simp only
  split <;> exact ⟨rfl, rfl⟩

theorem next_chk (N : Native) (ndebug : Bool) (s : Stmt) (log : List Call) (e : Exception)
    (hc : CHKTHROW ndebug s = some e) : Stmt.next N ndebug s log = ⟨.error e, s, log⟩ := by
  simp only [Stmt.next, hc]

theorem next_done (N : Native) (ndebug : Bool) (s : Stmt) (log : List Call)
    (hc : CHKTHROW ndebug s = none) (hd : s.done = true) :
    Stmt.next N ndebug s log = ⟨.error AlreadyDoneError, s, log⟩ := by
  simp [Stmt.next, hc, hd, AlreadyDoneError]

theorem next_step_done (N : Native) (ndebug : Bool) (s : Stmt) (log : List Call)
    (hc : CHKTHROW ndebug s = none) (hd : s.done = false)
    (h1 : N.sqlite3_step log s.stmt = SQLITE_DONE) :
    Stmt.next N ndebug s log
      = ⟨.ok false, { s with done := true, result := false }, log ++ [Call.step s.stmt]⟩ := by
  simp [Stmt.next, hc, hd, h1]

theorem next_step_row (N : Native) (ndebug : Bool) (s : Stmt) (log : List Call)
    (hc : CHKTHROW ndebug s = none) (hd : s.done = false)
    (h1 : N.sqlite3_step log s.stmt = SQLITE_ROW) :
    Stmt.next N ndebug s log
      = ⟨.ok true, { s with result := true }, log ++ [Call.step s.stmt]⟩ := by
  have hne : SQLITE_ROW ≠ SQLITE_DONE := by decide
  simp [Stmt.next, hc, hd, h1, hne]

theorem next_step_other (N : Native) (ndebug : Bool) (s : Stmt) (log : List Call)
    (hc : CHKTHROW ndebug s = none) (hd : s.done = false)
    (h1 : N.sqlite3_step log s.stmt ≠ SQLITE_DONE)
    (h2 : N.sqlite3_step log s.stmt ≠ SQLITE_ROW) :
    Stmt.next N ndebug s log
      = ⟨.error (ctxException N (log ++ [Call.step s.stmt]) s.owner), s,
          log ++ [Call.step s.stmt]⟩ := by
  simp [Stmt.next, hc, hd, h1, h2]

theorem next_error_state (N : Native) (ndebug : Bool) (s : Stmt) (log : List Call)
    (e : Exception) (h : (Stmt.next N ndebug s log).res = .error e) :
    (Stmt.next N ndebug s log).s = s := by
  cases hc : CHKTHROW ndebug s with
  | some e1 => rw [next_chk N ndebug s log e1 hc]
  | none =>
    cases hd : s.done with
    | true => rw [next_done N ndebug s log hc hd]
    | false =>
      by_cases h1 : N.sqlite3_step log s.stmt = SQLITE_DONE
      · rw [next_step_done N ndebug s log hc hd h1] at h
        cases h
      · by_cases h2 : N.sqlite3_step log s.stmt = SQLITE_ROW
        · rw [next_step_row N ndebug s log hc hd h2] at h
          cases h
        · rw [next_step_other N ndebug s log hc hd h1 h2]

/-- C7: when the eager `execute()` inside the `Finalizer` constructor fails with `e`
(native step error, statement already exhausted, or statement unprepared), the
constructor fails with that same `e` and leaves the statement finalized: `prepared`,
`hasRow` and `exhausted` are false, and when the statement was prepared its handle was
released by one `sqlite3_finalize` after the calls of `execute()` and set to null, while
for an unprepared statement no native call is added. -/
theorem finalizer_ctor_failure (N : Native) (ndebug : Bool) (s : Stmt) (log : List Call)
    (e : Exception) (h : (Stmt.execute N ndebug s log).res = .error e) :
    (Finalizer.ctor N ndebug s log).res = .error e ∧
    (Finalizer.ctor N ndebug s log).s.prepared = false ∧
    (Finalizer.ctor N ndebug s log).s.hasRow = false ∧
    (Finalizer.ctor N ndebug s log).s.exhausted = false ∧
    (s.prepared = true →
      (Finalizer.ctor N ndebug s log).log
          = (Stmt.execute N ndebug s log).log ++ [Call.finalize s.stmt] ∧
        (Finalizer.ctor N ndebug s log).s.stmt = NULL) ∧
    (s.prepared = false →
      (Finalizer.ctor N ndebug s log).log = (Stmt.execute N ndebug s log).log ∧
        (Finalizer.ctor N ndebug s log).s.stmt = s.stmt) := by
  have hn := (execute_res_error N ndebug s log e).mp h
  have hs : (Stmt.execute N ndebug s log).s = s := by
    rw [(execute_state N ndebug s log).1]
    exact next_error_state N ndebug s log e hn
  have hc : Finalizer.ctor N ndebug s log
      = ⟨.error e, (Stmt.finalize s (Stmt.execute N ndebug s log).log).s,
          (Stmt.finalize s (Stmt.execute N ndebug s log).log).log⟩ := by
    unfold Finalizer.ctor
    simp only [h, hs, finalize_res]
  have hf := finalize_flags s (Stmt.execute N ndebug s log).log
  rw [hc]
  refine ⟨rfl, hf.1, hf.2.1, hf.2.2, ?_, ?_⟩
  · intro hp
    have hp0 : s.ok = true := hp
    simp [Stmt.finalize, hp0]
  · intro hp
    have hp0 : s.ok = false := hp
    simp [Stmt.finalize, hp0]

/-- Witness for C7: a `Finalizer` built around an exhausted statement. -/
theorem finalizer_ctor_failure_witness :
    (Stmt.execute (scripted [] SQLITE_OK) false (insertStmt false true) []).res
      = .error AlreadyDoneError ∧
    (Finalizer.ctor (scripted [] SQLITE_OK) false (insertStmt false true) []).res
      = .error AlreadyDoneError ∧
    (Finalizer.ctor (scripted [] SQLITE_OK) false (insertStmt false true) []).s.prepared
      = false :=
  ⟨rfl,
    (finalizer_ctor_failure (scripted [] SQLITE_OK) false (insertStmt false true) []
      AlreadyDoneError rfl).1,
    (finalizer_ctor_failure (scripted [] SQLITE_OK) false (insertStmt false true) []
      AlreadyDoneError rfl).2.1⟩

/-- C8, counterexample: a prepared statement positioned on a row whose native reset
reports an error. `reset()` fails, and `hasRow` is false afterwards although it was true
before the call. -/
theorem reset_failure_clears_hasRow :
    (insertStmt true false).hasRow = true ∧
    (Stmt.reset (scripted [] 10) false (insertStmt true false) []).res
      = .error (.ofCtx 1 "native error") ∧
    (Stmt.reset (scripted [] 10) false (insertStmt true false) []).s.hasRow = false ∧
    (Stmt.reset (scripted [] 10) false (insertStmt true false) []).s.hasRow
      ≠ (insertStmt true false).hasRow := by
  refine ⟨rfl, rfl, rfl, ?_⟩
  decide

/-- C8, amended: a failed `reset()` leaves `prepared` (and every other member but the two
row flags) as before, and leaves `hasRow` and `exhausted` false, because the flags are
cleared before the checks; so the three flags equal their prior values exactly when
`hasRow` and `exhausted` were both false before the call. The failure is either
`NotPreparedError` with no native call (unprepared statement, build without `NDEBUG`) or
the connection's error detail after a `sqlite3_reset` that did not return `SQLITE_OK`. -/
theorem reset_failure_flags (N : Native) (ndebug : Bool) (s : Stmt) (log : List Call)
    (e : Exception) (h : (Stmt.reset N ndebug s log).res = .error e) :
    (Stmt.reset N ndebug s log).s = { s with result := false, done := false } ∧
    (Stmt.reset N ndebug s log).s.prepared = s.prepared ∧
    (Stmt.reset N ndebug s log).s.hasRow = false ∧
    (Stmt.reset N ndebug s log).s.exhausted = false ∧
    (((Stmt.reset N ndebug s log).s.prepared = s.prepared ∧
        (Stmt.reset N ndebug s log).s.hasRow = s.hasRow ∧
        (Stmt.reset N ndebug s log).s.exhausted = s.exhausted) ↔
      (s.hasRow = false ∧ s.exhausted = false)) ∧
    ((ndebug = false ∧ s.prepared = false ∧ e = NotPreparedError ∧
        (Stmt.reset N ndebug s log).log = log) ∨
      (N.sqlite3_reset log s.stmt ≠ SQLITE_OK ∧
        e = ctxException N (log ++ [Call.reset s.stmt]) s.owner ∧
        (Stmt.reset N ndebug s log).log = log ++ [Call.reset s.stmt])) := by
  have hs := reset_state N ndebug s log
  refine ⟨hs, by rw [hs]; rfl, by rw [hs]; rfl, by rw [hs]; rfl, ?_, ?_⟩
  · rw [hs]
    constructor
    · rintro ⟨_, h1, h2⟩
      exact ⟨h1.symm, h2.symm⟩
    · rintro ⟨h1, h2⟩
      exact ⟨rfl, h1.symm, h2.symm⟩
  · by_cases hc : CHKTHROW ndebug { s with result := false, done := false } = none
    · right
      have hx : N.sqlite3_reset log s.stmt ≠ SQLITE_OK := by
        intro hx
        simp [Stmt.reset, hc, SQLOK, hx] at h
      have hq : SQLITE_OK ≠ N.sqlite3_reset log s.stmt := fun hy => hx hy.symm
      have hr : Stmt.reset N ndebug s log
          = ⟨.error (ctxException N (log ++ [Call.reset s.stmt]) s.owner),
              { s with result := false, done := false }, log ++ [Call.reset s.stmt]⟩ := by
        simp [Stmt.reset, hc, SQLOK, hq]
      rw [hr] at h ⊢
      injection h with h
      exact ⟨hx, h.symm, rfl⟩
    · left
      cases hn : ndebug with
      | true =>
        rw [hn] at hc
        exact absurd rfl hc
      | false =>
        cases hok : s.ok with
        | true =>
          rw [hn] at hc
          exact absurd (chkthrow_prepared false _ hok) hc
        | false =>
          have hr : CHKTHROW false { s with result := false, done := false }
              = some NotPreparedError := chkthrow_unprepared _ hok
          have hq : Stmt.reset N false s log
              = ⟨.error NotPreparedError, { s with result := false, done := false }, log⟩ := by
            simp [Stmt.reset, hr]
          rw [hn] at h
          rw [hq] at h ⊢
          injection h with h
          exact ⟨rfl, hok, h.symm, rfl⟩

/-- Witness for C8: the failing reset of the counterexample. -/
theorem reset_failure_flags_witness :
    (Stmt.reset (scripted [] 10) false (insertStmt true false) []).res
      = .error (.ofCtx 1 "native error") ∧
    (Stmt.reset (scripted [] 10) false (insertStmt true false) []).s.prepared = true ∧
    (Stmt.reset (scripted [] 10) false (insertStmt true false) []).s.hasRow = false :=
  ⟨rfl,
    (reset_failure_flags (scripted [] 10) false (insertStmt true false) []
      (.ofCtx 1 "native error") rfl).2.1,
    (reset_failure_flags (scripted [] 10) false (insertStmt true false) []
      (.ofCtx 1 "native error") rfl).2.2.1⟩

theorem bind_state (N : Native) (ndebug : Bool) (idx : Nat) (v : BindValue) (s : Stmt)
    (log : List Call) : (Stmt.bind N ndebug idx v s log).s = s := by
  unfold Stmt.bind
  split
  · rfl
  · simp only
    split <;> rfl

/-- C9: every `bind` overload (null, int, 64-bit int, double, text, blob) leaves the
statement object, and so `prepared`, `hasRow` and `exhausted`, unchanged whether it
succeeds or fails; and a `next()` that fails (unprepared, already done, or native step
error) leaves the statement object, and so the three flags, as before the call. -/
theorem bind_and_failed_next_keep_flags (N : Native) (ndebug : Bool) (idx : Nat)
    (v : BindValue) (s : Stmt) (log : List Call) :
    (Stmt.bind N ndebug idx v s log).s = s ∧
    (Stmt.bind N ndebug idx v s log).s.prepared = s.prepared ∧
    (Stmt.bind N ndebug idx v s log).s.hasRow = s.hasRow ∧
    (Stmt.bind N ndebug idx v s log).s.exhausted = s.exhausted ∧
    (∀ e, (Stmt.next N ndebug s log).res = .error e →
      (Stmt.next N ndebug s log).s = s ∧
      (Stmt.next N ndebug s log).s.prepared = s.prepared ∧
      (Stmt.next N ndebug s log).s.hasRow = s.hasRow ∧
      (Stmt.next N ndebug s log).s.exhausted = s.exhausted) := by
  have hb := bind_state N ndebug idx v s log
  refine ⟨hb, by rw [hb], by rw [hb], by rw [hb], ?_⟩
  intro e he
  have hn := next_error_state N ndebug s log e he
  exact ⟨hn, by rw [hn], by rw [hn], by rw [hn]⟩

/-- Witness for C9: a text bind that the native layer accepts, and a `next()` on a row
whose native step reports an error. -/
theorem bind_and_failed_next_keep_flags_witness :
    (Stmt.bind (scripted [5] SQLITE_OK) false 1 (.text "a") (insertStmt true false) []).res
      = .ok () ∧
    (Stmt.bind (scripted [5] SQLITE_OK) false 1 (.text "a") (insertStmt true false) []).s
      = insertStmt true false ∧
    (Stmt.next (scripted [5] SQLITE_OK) false (insertStmt true false) []).res
      = .error (.ofCtx 1 "native error") ∧
    (Stmt.next (scripted [5] SQLITE_OK) false (insertStmt true false) []).s
      = insertStmt true false :=
  ⟨rfl,
    (bind_and_failed_next_keep_flags (scripted [5] SQLITE_OK) false 1 (.text "a")
      (insertStmt true false) []).1,
    rfl,
    ((bind_and_failed_next_keep_flags (scripted [5] SQLITE_OK) false 1 (.text "a")
      (insertStmt true false) []).2.2.2.2 (.ofCtx 1 "native error") rfl).1⟩

/-- C10: on a prepared statement that is not exhausted, `next()` makes one native step
and follows its outcome. On a row it returns true with `hasRow` true and `exhausted`
false; on done it returns false with `exhausted` true and `hasRow` false; on any other
outcome it fails with the connection's error detail (`StepError`) and leaves the
statement as it was. Whenever it returns, the value returned equals `hasRow` and the
negation of `exhausted`. -/
theorem next_follows_native_step (N : Native) (ndebug : Bool) (s : Stmt) (log : List Call)
    (hp : s.prepared = true) (hd : s.exhausted = false) :
    (N.sqlite3_step log s.stmt = SQLITE_ROW →
      Stmt.next N ndebug s log
        = ⟨.ok true, { s with result := true }, log ++ [Call.step s.stmt]⟩ ∧
      (Stmt.next N ndebug s log).s.hasRow = true ∧
      (Stmt.next N ndebug s log).s.exhausted = false) ∧
    (N.sqlite3_step log s.stmt = SQLITE_DONE →
      Stmt.next N ndebug s log
        = ⟨.ok false, { s with done := true, result := false },
            log ++ [Call.step s.stmt]⟩ ∧
      (Stmt.next N ndebug s log).s.hasRow = false ∧
      (Stmt.next N ndebug s log).s.exhausted = true) ∧
    (N.sqlite3_step log s.stmt ≠ SQLITE_ROW → N.sqlite3_step log s.stmt ≠ SQLITE_DONE →
      Stmt.next N ndebug s log
        = ⟨.error (ctxException N (log ++ [Call.step s.stmt]) s.owner), s,
            log ++ [Call.step s.stmt]⟩) ∧
    (∀ b, (Stmt.next N ndebug s log).res = .ok b →
      b = (Stmt.next N ndebug s log).s.hasRow ∧
      b = !(Stmt.next N ndebug s log).s.exhausted) := by
  have hp0 : s.ok = true := hp
  have hd0 : s.done = false := hd
  have hc := chkthrow_prepared ndebug s hp0
  refine ⟨?_, ?_, ?_, ?_⟩
  · intro h1
    rw [next_step_row N ndebug s log hc hd0 h1]
    exact ⟨rfl, rfl, hd0⟩
  · intro h1
    rw [next_step_done N ndebug s log hc hd0 h1]
    exact ⟨rfl, rfl, rfl⟩
  · intro h1 h2
    exact next_step_other N ndebug s log hc hd0 h2 h1
  · intro b hb
    by_cases h1 : N.sqlite3_step log s.stmt = SQLITE_DONE
    · rw [next_step_done N ndebug s log hc hd0 h1] at hb ⊢
      injection hb with hb
      subst hb
      exact ⟨rfl, rfl⟩
    · by_cases h2 : N.sqlite3_step log s.stmt = SQLITE_ROW
      · rw [next_step_row N ndebug s log hc hd0 h2] at hb ⊢
        injection hb with hb
        subst hb
        refine ⟨rfl, ?_⟩
        show true = !s.done
        rw [hd0]
        rfl
      · rw [next_step_other N ndebug s log hc hd0 h1 h2] at hb
        cases hb

/-- Witness for C10: the first step of a freshly prepared statement yields a row. -/
theorem next_follows_native_step_witness :
    (insertStmt false false).prepared = true ∧
    (insertStmt false false).exhausted = false ∧
    (scripted [SQLITE_ROW] SQLITE_OK).sqlite3_step [] (insertStmt false false).stmt
      = SQLITE_ROW ∧
    Stmt.next (scripted [SQLITE_ROW] SQLITE_OK) false (insertStmt false false) []
      = ⟨.ok true, insertStmt true false, [Call.step 7]⟩ :=
  ⟨rfl, rfl, rfl,
    ((next_follows_native_step (scripted [SQLITE_ROW] SQLITE_OK) false
      (insertStmt false false) [] rfl rfl).1 rfl).1⟩

theorem prepare_log (N : Native) (s : Stmt) (log : List Call) :
    (Stmt.prepare N s log).log = log ++ [Call.prepare_v2 s.owner s.query] := by
  unfold Stmt.prepare
  simp only
  split
  · rfl
  · split <;> rfl

theorem prepare_success (N : Native) (s : Stmt) (log : List Call)
    (h : (N.sqlite3_prepare_v2 log s.owner s.query).1 = SQLITE_OK) :
    (Stmt.prepare N s log).res = .ok () ∧
    (Stmt.prepare N s log).s
      = { s with
          stmt := (N.sqlite3_prepare_v2 log s.owner s.query).2.1,
          ok := true, result := false, done := false,
          tail := match (N.sqlite3_prepare_v2 log s.owner s.query).2.2 with
            | some pTail => pTail
            | none => s.tail } := by
  unfold Stmt.prepare
  simp only [h, ne_eq, not_true_eq_false, if_false]
  split <;> exact ⟨rfl, rfl⟩

theorem prepare_failure (N : Native) (s : Stmt) (log : List Call)
    (h : (N.sqlite3_prepare_v2 log s.owner s.query).1 ≠ SQLITE_OK) :
    Stmt.prepare N s log
      = ⟨.error (ctxException N (log ++ [Call.prepare_v2 s.owner s.query]) s.owner),
          { s with
            stmt := (N.sqlite3_prepare_v2 log s.owner s.query).2.1,
            ok := false, result := false, done := false },
          log ++ [Call.prepare_v2 s.owner s.query]⟩ := by
  unfold Stmt.prepare
  simp only [h, ne_eq, not_false_eq_true, if_true]

/-- C11: `prepare()` from any prior state makes one `sqlite3_prepare_v2` call on the
stored query. If that call returns `SQLITE_OK`, `prepare()` returns with `prepared` true,
`hasRow` and `exhausted` false, the handle the native layer stored, and `tail` equal to
the trailing text the native layer reported (the old `tail` stays only when the native
layer left `pTail` null). Otherwise it fails with the connection's error detail
(`PrepareError`) and the statement has all three flags false. The constructor is
`prepare()` on a fresh object. -/
theorem prepare_postcondition (N : Native) (s : Stmt) (log : List Call) :
    ((N.sqlite3_prepare_v2 log s.owner s.query).1 = SQLITE_OK →
      (Stmt.prepare N s log).res = .ok () ∧
      (Stmt.prepare N s log).s.prepared = true ∧
      (Stmt.prepare N s log).s.hasRow = false ∧
      (Stmt.prepare N s log).s.exhausted = false ∧
      (Stmt.prepare N s log).s.stmt = (N.sqlite3_prepare_v2 log s.owner s.query).2.1 ∧
      (∀ pTail, (N.sqlite3_prepare_v2 log s.owner s.query).2.2 = some pTail →
        (Stmt.prepare N s log).s.tail = pTail) ∧
      ((N.sqlite3_prepare_v2 log s.owner s.query).2.2 = none →
        (Stmt.prepare N s log).s.tail = s.tail)) ∧
    ((N.sqlite3_prepare_v2 log s.owner s.query).1 ≠ SQLITE_OK →
      (Stmt.prepare N s log).res
        = .error (ctxException N (log ++ [Call.prepare_v2 s.owner s.query]) s.owner) ∧
      (Stmt.prepare N s log).s.prepared = false ∧
      (Stmt.prepare N s log).s.hasRow = false ∧
      (Stmt.prepare N s log).s.exhausted = false) ∧
    (Stmt.prepare N s log).log = log ++ [Call.prepare_v2 s.owner s.query] ∧
    (Stmt.prepare N s log).s.query = s.query ∧
    (∀ self aOwner aQuery, Stmt.ctor N self aOwner aQuery log
      = Stmt.prepare N ⟨self, aOwner, aQuery, "", NULL, false, false, false⟩ log) := by
  refine ⟨?_, ?_, prepare_log N s log, ?_, fun _ _ _ => rfl⟩
  · intro h
    obtain ⟨h1, h2⟩ := prepare_success N s log h
    refine ⟨h1, by rw [h2]; rfl, by rw [h2]; rfl, by rw [h2]; rfl, by rw [h2], ?_, ?_⟩
    · intro pTail hp
      rw [h2]
      simp only [hp]
    · intro hp
      rw [h2]
      simp only [hp]
  · intro h
    rw [prepare_failure N s log h]
    exact ⟨rfl, rfl, rfl, rfl⟩
  · by_cases h : (N.sqlite3_prepare_v2 log s.owner s.query).1 = SQLITE_OK
    · rw [(prepare_success N s log h).2]
    · rw [prepare_failure N s log h]

/-- Witness for C11: re-preparing an exhausted statement whose query holds two
statements; the tail is the text after the first one. -/
theorem prepare_postcondition_witness :
    ((compiling 9).sqlite3_prepare_v2 [] 1 "SELECT 1; SELECT 2").1 = SQLITE_OK ∧
    (Stmt.prepare (compiling 9) ⟨1000, 1, "SELECT 1; SELECT 2", "", 7, true, false, true⟩
      []).s = ⟨1000, 1, "SELECT 1; SELECT 2", " SELECT 2", 9, true, false, false⟩ ∧
    (Stmt.prepare (compiling 9) ⟨1000, 1, "SELECT 1; SELECT 2", "", 7, true, false, true⟩
      []).s.prepared = true ∧
    (Stmt.prepare (compiling 9) ⟨1000, 1, "SELECT 1; SELECT 2", "", 7, true, false, true⟩
      []).s.tail = " SELECT 2" :=
  ⟨rfl, rfl,
    ((prepare_postcondition (compiling 9)
      ⟨1000, 1, "SELECT 1; SELECT 2", "", 7, true, false, true⟩ []).1 rfl).2.1,
    ((prepare_postcondition (compiling 9)
      ⟨1000, 1, "SELECT 1; SELECT 2", "", 7, true, false, true⟩ []).1 rfl).2.2.2.2.2.1
      " SELECT 2" rfl⟩

/-- C13: constructing a `Resetter` changes nothing. Its destructor is `reset()` with
every failure swallowed: it returns normally from every statement state, leaves the
statement and the log as `reset()` does, so `hasRow` and `exhausted` are false afterwards
and `prepared` (with every other member) is as before, whether the statement was ready,
on a row, exhausted or unprepared and whether or not the native reset reported an
error. -/
theorem resetter_contract (N : Native) (ndebug : Bool) (s : Stmt) (log : List Call) :
    Resetter.ctor s log = ⟨.ok (), s, log⟩ ∧
    (Resetter.dtor N ndebug s log).res = .ok () ∧
    (Resetter.dtor N ndebug s log).s = (Stmt.reset N ndebug s log).s ∧
    (Resetter.dtor N ndebug s log).log = (Stmt.reset N ndebug s log).log ∧
    (Resetter.dtor N ndebug s log).s = { s with result := false, done := false } ∧
    (Resetter.dtor N ndebug s log).s.hasRow = false ∧
    (Resetter.dtor N ndebug s log).s.exhausted = false ∧
    (Resetter.dtor N ndebug s log).s.prepared = s.prepared := by
  have hd : (Resetter.dtor N ndebug s log).res = .ok () ∧
      (Resetter.dtor N ndebug s log).s = (Stmt.reset N ndebug s log).s ∧
      (Resetter.dtor N ndebug s log).log = (Stmt.reset N ndebug s log).log := by
    unfold Resetter.dtor
    simp only
    split <;> exact ⟨rfl, rfl, rfl⟩
  have hs := reset_state N ndebug s log
  have h2 : (Resetter.dtor N ndebug s log).s = { s with result := false, done := false } := by
    rw [hd.2.1, hs]
  refine ⟨rfl, hd.1, hd.2.1, hd.2.2, h2, by rw [h2]; rfl, by rw [h2]; rfl, by rw [h2]; rfl⟩

theorem next_not_unprepared (N : Native) (ndebug : Bool) (s : Stmt) (log : List Call)
    (hok : s.ok = true) (hd : s.done = false) :
    (Stmt.next N ndebug s log).res ≠ .error NotPreparedError := by
  have hc := chkthrow_prepared ndebug s hok
  by_cases h1 : N.sqlite3_step log s.stmt = SQLITE_DONE
  · rw [next_step_done N ndebug s log hc hd h1]
    intro h
    cases h
  · by_cases h2 : N.sqlite3_step log s.stmt = SQLITE_ROW
    · rw [next_step_row N ndebug s log hc hd h2]
      intro h
      cases h
    · rw [next_step_other N ndebug s log hc hd h1 h2]
      intro h
      simp only [ctxException, NotPreparedError] at h
      cases h

/-- C14: copy-constructing `B` (at address `self`) from a prepared `A` makes one fresh
`sqlite3_prepare_v2` call on `A`'s query text; when it succeeds, `B` is prepared and
ready, holds the handle that call stored, and nothing of `B` depends on `A`'s handle or
flags. Statement objects are separate values that share only the native layer:
`finalize()` on `A` afterwards makes the single native call `sqlite3_finalize` on `A`'s
handle, which is not a release of `B`'s handle when the native layer gave `B` a handle
of its own, and `next()` on `B` after it does not fail with `NotPreparedError`. -/
theorem copy_is_independent (N : Native) (ndebug : Bool) (self : Nat) (A : Stmt)
    (log : List Call) (hA : A.prepared = true)
    (hc : (N.sqlite3_prepare_v2 log A.owner A.query).1 = SQLITE_OK) :
    (Stmt.copy N self A log).res = .ok () ∧
    (Stmt.copy N self A log).s.prepared = true ∧
    (Stmt.copy N self A log).s.hasRow = false ∧
    (Stmt.copy N self A log).s.exhausted = false ∧
    (Stmt.copy N self A log).s.self = self ∧
    (Stmt.copy N self A log).s.owner = A.owner ∧
    (Stmt.copy N self A log).s.query = A.query ∧
    (Stmt.copy N self A log).s.stmt = (N.sqlite3_prepare_v2 log A.owner A.query).2.1 ∧
    (Stmt.copy N self A log).log = log ++ [Call.prepare_v2 A.owner A.query] ∧
    (∀ h ok result done,
      Stmt.copy N self { A with stmt := h, ok := ok, result := result, done := done } log
        = Stmt.copy N self A log) ∧
    (Stmt.finalize A (Stmt.copy N self A log).log).log
      = (Stmt.copy N self A log).log ++ [Call.finalize A.stmt] ∧
    ((Stmt.copy N self A log).s.stmt ≠ A.stmt →
      Call.finalize A.stmt ≠ Call.finalize (Stmt.copy N self A log).s.stmt) ∧
    (Stmt.next N ndebug (Stmt.copy N self A log).s
      (Stmt.finalize A (Stmt.copy N self A log).log).log).res
        ≠ .error NotPreparedError := by
  have hA0 : A.ok = true := hA
  obtain ⟨h1, h2⟩ := prepare_success N ⟨self, A.owner, A.query, "", NULL, false, false, false⟩
    log hc
  have hs : (Stmt.copy N self A log).s
      = { (⟨self, A.owner, A.query, "", NULL, false, false, false⟩ : Stmt) with
          stmt := (N.sqlite3_prepare_v2 log A.owner A.query).2.1,
          ok := true, result := false, done := false,
          tail := match (N.sqlite3_prepare_v2 log A.owner A.query).2.2 with
            | some pTail => pTail
            | none => "" } := h2
  refine ⟨h1, by rw [hs]; rfl, by rw [hs]; rfl, by rw [hs]; rfl, by rw [hs], by rw [hs],
    by rw [hs], by rw [hs], prepare_log N _ log, fun _ _ _ _ => rfl, ?_, ?_, ?_⟩
  · simp [Stmt.finalize, hA0]
  · intro hne heq
    injection heq with heq
    exact hne heq.symm
  · exact next_not_unprepared N ndebug _ _ (by rw [hs]) (by rw [hs])

/-- Witness for C14: a copy of the prepared statement on handle `7`, compiled afresh to
handle `9`. -/
theorem copy_is_independent_witness :
    (insertStmt true false).prepared = true ∧
    ((compiling 9).sqlite3_prepare_v2 [] (insertStmt true false).owner
      (insertStmt true false).query).1 = SQLITE_OK ∧
    (Stmt.copy (compiling 9) 2000 (insertStmt true false) []).s
      = ⟨2000, 1, "INSERT INTO t(a) VALUES (?)", "", 9, true, false, false⟩ ∧
    (Stmt.finalize (insertStmt true false)
      (Stmt.copy (compiling 9) 2000 (insertStmt true false) []).log).log
      = (Stmt.copy (compiling 9) 2000 (insertStmt true false) []).log
          ++ [Call.finalize (insertStmt true false).stmt] :=
  ⟨rfl, rfl, rfl,
    (copy_is_independent (compiling 9) false 2000 (insertStmt true false) [] rfl
      rfl).2.2.2.2.2.2.2.2.2.2.1⟩

/-- C19: `value(index)` does not look at the index. In the state prepared, on a row and
not exhausted it returns `Data(this, index)` for every index, in particular for every
index at or beyond the count that `getColumnCount()` returns; and for two statements
with the same three flags (in the same build) `value` fails with the same failure or
succeeds alike, whatever the two indexes are. -/
theorem value_ignores_index (N : Native) (ndebug : Bool) (idx : Nat) (s : Stmt)
    (log : List Call) :
    (s.prepared = true → s.hasRow = true → s.exhausted = false →
      Stmt.value ndebug idx s log = ⟨.ok ⟨s.self, idx⟩, s, log⟩) ∧
    (∀ n : Int, s.prepared = true → s.hasRow = true → s.exhausted = false →
      (Stmt.getColumnCount N ndebug s log).res = .ok n → n ≤ (idx : Int) →
      (Stmt.value ndebug idx s log).res = .ok ⟨s.self, idx⟩) ∧
    (∀ (s1 : Stmt) (log1 : List Call) (idx1 : Nat),
      s1.prepared = s.prepared → s1.hasRow = s.hasRow → s1.exhausted = s.exhausted →
      (Stmt.value ndebug idx1 s1 log1).res.map (fun _ => ())
        = (Stmt.value ndebug idx s log).res.map (fun _ => ())) := by
  have key : s.ok = true → s.result = true → s.done = false →
      Stmt.value ndebug idx s log = ⟨.ok ⟨s.self, idx⟩, s, log⟩ := by
    intro h1 h2 h3
    simp [Stmt.value, chkthrow_prepared ndebug s h1, h2, h3]
  refine ⟨key, ?_, ?_⟩
  · intro n h1 h2 h3 _ _
    rw [key h1 h2 h3]
  · intro s1 log1 idx1 h1 h2 h3
    have h1a : s1.ok = s.ok := h1
    have h2a : s1.result = s.result := h2
    have h3a : s1.done = s.done := h3
    simp only [Stmt.value, CHKTHROW, h1a, h2a, h3a]
    cases ndebug <;> cases s.ok <;> cases s.done <;> cases s.result <;> rfl

/-- Witness for C19: a statement with one column, on a row, read at index 5. -/
theorem value_ignores_index_witness :
    (insertStmt true false).prepared = true ∧
    (Stmt.getColumnCount (scripted [] SQLITE_OK) false (insertStmt true false) []).res
      = .ok 1 ∧
    (Stmt.value false 5 (insertStmt true false) []).res
      = .ok ⟨(insertStmt true false).self, 5⟩ :=
  ⟨rfl, rfl,
    (value_ignores_index (scripted [] SQLITE_OK) false 5 (insertStmt true false) []).2.1 1
      rfl rfl rfl rfl (by decide)⟩

theorem finalize_state (s : Stmt) (log : List Call) :
    (Stmt.finalize s log).s
        = { s with stmt := if s.ok then NULL else s.stmt,
                   result := false, done := false, ok := false } ∧
      (Stmt.finalize s log).log = log ++ (if s.ok then [Call.finalize s.stmt] else []) := by
  unfold Stmt.finalize
  cases h : s.ok <;> simp

/-- C17: when `executeMany` returns without failure, for any number of records, the log
of native calls is the log at entry, then the begin of the transaction, then the binds
and steps of the records (no `sqlite3_finalize` and no commit among them), then the
`sqlite3_finalize` of the statement's handle (one, when the statement was prepared), then
one commit; and the statement is left with `prepared`, `hasRow` and `exhausted` false and,
if it was prepared, a null handle, so that in a build without `NDEBUG` a further `next()`
fails with `NotPreparedError`. -/
theorem executeMany_success (N : Native) (ndebug : Bool) (dp : DataItr)
    (aType : TransactionType) (s : Stmt) (log : List Call)
    (h : (Stmt.executeMany N ndebug dp aType s log).res = .ok ()) :
    ∃ added,
      (Stmt.executeManyLoop N ndebug dp s (log ++ [Call.trans_begin s.owner aType])).res
        = .ok () ∧
      (Stmt.executeManyLoop N ndebug dp s (log ++ [Call.trans_begin s.owner aType])).log
        = log ++ [Call.trans_begin s.owner aType] ++ added ∧
      (∀ c ∈ added, c.isFinalize = false ∧ c.isCommit = false) ∧
      (Stmt.executeMany N ndebug dp aType s log).log
        = log ++ [Call.trans_begin s.owner aType] ++ added
            ++ (if s.ok then [Call.finalize s.stmt] else [])
            ++ [Call.trans_commit s.owner] ∧
      (Stmt.executeMany N ndebug dp aType s log).s.prepared = false ∧
      (Stmt.executeMany N ndebug dp aType s log).s.hasRow = false ∧
      (Stmt.executeMany N ndebug dp aType s log).s.exhausted = false ∧
      (s.prepared = true → (Stmt.executeMany N ndebug dp aType s log).s.stmt = NULL) ∧
      (Stmt.next N false (Stmt.executeMany N ndebug dp aType s log).s
        (Stmt.executeMany N ndebug dp aType s log).log).res = .error NotPreparedError := by
  obtain ⟨k1, k2, added, k3, k4⟩ :=
    loop_keeps N ndebug dp s (log ++ [Call.trans_begin s.owner aType])
  cases hl : (Stmt.executeManyLoop N ndebug dp s
      (log ++ [Call.trans_begin s.owner aType])).res with
  | error e =>
    simp only [Stmt.executeMany, hl] at h
    cases h
  | ok u =>
    have hf := finalize_state
      (Stmt.executeManyLoop N ndebug dp s (log ++ [Call.trans_begin s.owner aType])).s
      (Stmt.executeManyLoop N ndebug dp s (log ++ [Call.trans_begin s.owner aType])).log
    have he : Stmt.executeMany N ndebug dp aType s log
        = ⟨.ok (),
            (Stmt.finalize
              (Stmt.executeManyLoop N ndebug dp s
                (log ++ [Call.trans_begin s.owner aType])).s
              (Stmt.executeManyLoop N ndebug dp s
                (log ++ [Call.trans_begin s.owner aType])).log).s,
            (Stmt.finalize
              (Stmt.executeManyLoop N ndebug dp s
                (log ++ [Call.trans_begin s.owner aType])).s
              (Stmt.executeManyLoop N ndebug dp s
                (log ++ [Call.trans_begin s.owner aType])).log).log
              ++ [Call.trans_commit s.owner]⟩ := by
      simp only [Stmt.executeMany, hl, finalize_res]
    have hflags := finalize_flags
      (Stmt.executeManyLoop N ndebug dp s (log ++ [Call.trans_begin s.owner aType])).s
      (Stmt.executeManyLoop N ndebug dp s (log ++ [Call.trans_begin s.owner aType])).log
    refine ⟨added, rfl, k3, k4, ?_, ?_, ?_, ?_, ?_, ?_⟩
    · rw [he]
      simp only
      rw [hf.2, k1, k2, k3]
    · rw [he]; exact hflags.1
    · rw [he]; exact hflags.2.1
    · rw [he]; exact hflags.2.2
    · intro hp
      have hp0 : s.ok = true := hp
      rw [he]
      simp only
      rw [hf.1, k1, hp0]
      rfl
    · have hu : (Stmt.executeMany N ndebug dp aType s log).s.ok = false := by
        rw [he]; exact hflags.1
      rw [next_chk N false _ _ NotPreparedError (chkthrow_unprepared _ hu)]

/-- Witness for C17: three records whose steps each report a row. -/
theorem executeMany_success_witness :
    (Stmt.executeMany (scripted [SQLITE_ROW, SQLITE_ROW, SQLITE_ROW] SQLITE_OK) false
      threeRecords .exclusive (insertStmt false false) []).res = .ok () ∧
    (Stmt.executeMany (scripted [SQLITE_ROW, SQLITE_ROW, SQLITE_ROW] SQLITE_OK) false
      threeRecords .exclusive (insertStmt false false) []).log
      = [Call.trans_begin 1 .exclusive, Call.bind 7 1 (.int 10), Call.step 7,
          Call.bind 7 1 (.int 20), Call.step 7, Call.bind 7 1 (.int 30), Call.step 7,
          Call.finalize 7, Call.trans_commit 1] ∧
    ∃ added,
      (Stmt.executeManyLoop (scripted [SQLITE_ROW, SQLITE_ROW, SQLITE_ROW] SQLITE_OK) false
        threeRecords (insertStmt false false)
        ([] ++ [Call.trans_begin (insertStmt false false).owner .exclusive])).res
        = .ok () ∧
      (Stmt.executeManyLoop (scripted [SQLITE_ROW, SQLITE_ROW, SQLITE_ROW] SQLITE_OK) false
        threeRecords (insertStmt false false)
        ([] ++ [Call.trans_begin (insertStmt false false).owner .exclusive])).log
        = [] ++ [Call.trans_begin (insertStmt false false).owner .exclusive] ++ added ∧
      (∀ c ∈ added, c.isFinalize = false ∧ c.isCommit = false) :=
  ⟨rfl, rfl,
    (executeMany_success (scripted [SQLITE_ROW, SQLITE_ROW, SQLITE_ROW] SQLITE_OK) false
      threeRecords .exclusive (insertStmt false false) [] rfl).imp
      (fun _ hx => ⟨hx.1, hx.2.1, hx.2.2.1⟩)⟩

theorem getColumnCount_keeps (N : Native) (ndebug : Bool) (s : Stmt) (log : List Call) :
    (Stmt.getColumnCount N ndebug s log).Keeps s log := by
  unfold Stmt.getColumnCount
  split
  · exact keeps_refl _ s log
  · simp only
    split <;> exact keeps_one _ s s log _ rfl rfl rfl rfl

theorem value_keeps (ndebug : Bool) (idx : Nat) (s : Stmt) (log : List Call) :
    (Stmt.value ndebug idx s log).Keeps s log := by
  unfold Stmt.value
  split
  · exact keeps_refl _ s log
  · split
    · exact keeps_refl _ s log
    · split <;> exact keeps_refl _ s log

theorem probe_keeps (N : Native) (ndebug : Bool) (p : Probe) (st : State) :
    (Outcome.mk (.ok ()) (Probe.run N ndebug p st).1 (Probe.run N ndebug p st).2).Keeps
      st.1 st.2 := by
  cases p with
  | bind i v => exact bind_keeps N ndebug i v st.1 st.2
  | getColumnCount => exact getColumnCount_keeps N ndebug st.1 st.2
  | value i => exact value_keeps ndebug i st.1 st.2
  | next => exact next_keeps N ndebug st.1 st.2

theorem probes_keep (N : Native) (ndebug : Bool) (ps : List Probe) (st : State) :
    (Outcome.mk (.ok ()) (Probe.runAll N ndebug ps st).1 (Probe.runAll N ndebug ps st).2).Keeps
      st.1 st.2 := by
  induction ps generalizing st with
  | nil => exact keeps_refl _ st.1 st.2
  | cons p rest ih =>
    have h2 : Probe.runAll N ndebug (p :: rest) st
        = Probe.runAll N ndebug rest (Probe.run N ndebug p st) := rfl
    rw [h2]
    exact keeps_trans _ _ st.1 st.2 (probe_keeps N ndebug p st) (ih (Probe.run N ndebug p st))

theorem filter_isFinalize_nil (added : List Call)
    (h : ∀ c ∈ added, c.isFinalize = false ∧ c.isCommit = false) :
    added.filter Call.isFinalize = [] := by
  rw [List.filter_eq_nil_iff]
  intro c hc
  rw [(h c hc).1]
  exact Bool.false_ne_true

theorem finalizer_ctor_ok (N : Native) (ndebug : Bool) (s : Stmt) (log : List Call)
    (h : (Stmt.execute N ndebug s log).res = .ok ()) :
    Finalizer.ctor N ndebug s log
      = ⟨.ok (), (Stmt.execute N ndebug s log).s, (Stmt.execute N ndebug s log).log⟩ := by
  simp only [Finalizer.ctor, h]

theorem finalizer_ctor_error (N : Native) (ndebug : Bool) (s : Stmt) (log : List Call)
    (e : Exception) (h : (Stmt.execute N ndebug s log).res = .error e) :
    Finalizer.ctor N ndebug s log
      = ⟨.error e, (Stmt.finalize s (Stmt.execute N ndebug s log).log).s,
          (Stmt.finalize s (Stmt.execute N ndebug s log).log).log⟩ := by
  have hn := (execute_res_error N ndebug s log e).mp h
  have hs : (Stmt.execute N ndebug s log).s = s := by
    rw [(execute_state N ndebug s log).1]
    exact next_error_state N ndebug s log e hn
  simp only [Finalizer.ctor, h, hs, finalize_res]

theorem finalizer_dtor_eq (s : Stmt) (log : List Call) :
    Finalizer.dtor s log = ⟨.ok (), (Stmt.finalize s log).s, (Stmt.finalize s log).log⟩ := by
  simp only [Finalizer.dtor, finalize_res]

/-- C12: a prepared statement guarded by a `Finalizer`, the scope holding any calls of
`bind`, `getColumnCount`, `value` and `next` and ending normally or by an exception. When
the scope has ended the statement is unprepared with a null handle, and the native calls
added hold exactly one `sqlite3_finalize`, of the statement's handle. If the eager
`execute()` failed with `e`, that release is made in the constructor, the scope fails with
`e`, and nothing runs after it; if `execute()` returned, the release is the last call,
made by the destructor after the calls of the body, and what leaves the scope is the
exception of the body, if any, never one from `finalize`. -/
theorem finalizer_scope_releases_once (N : Native) (ndebug : Bool) (body : List Probe)
    (thrown : Option Exception) (s : Stmt) (log : List Call) (hp : s.prepared = true) :
    (Finalizer.scope N ndebug body thrown s log).s.prepared = false ∧
    (Finalizer.scope N ndebug body thrown s log).s.hasRow = false ∧
    (Finalizer.scope N ndebug body thrown s log).s.exhausted = false ∧
    (Finalizer.scope N ndebug body thrown s log).s.stmt = NULL ∧
    (∃ added, (Finalizer.scope N ndebug body thrown s log).log = log ++ added ∧
      added.filter Call.isFinalize = [Call.finalize s.stmt]) ∧
    (∀ e, (Stmt.execute N ndebug s log).res = .error e →
      (Finalizer.scope N ndebug body thrown s log).res = .error e ∧
      (Finalizer.scope N ndebug body thrown s log).log
        = (Stmt.execute N ndebug s log).log ++ [Call.finalize s.stmt]) ∧
    ((Stmt.execute N ndebug s log).res = .ok () →
      (Finalizer.scope N ndebug body thrown s log).res
        = (match thrown with
          | some e => .error e
          | none => .ok ()) ∧
      (Finalizer.scope N ndebug body thrown s log).log
        = (Probe.runAll N ndebug body (Stmt.execute N ndebug s log).state).2
            ++ [Call.finalize s.stmt]) := by
  have hp0 : s.ok = true := hp
  obtain ⟨x1, x2, xadded, x3, x4⟩ := execute_keeps N ndebug s log
  cases hx : (Stmt.execute N ndebug s log).res with
  | error e =>
    have hc := finalizer_ctor_error N ndebug s log e hx
    have hf := finalize_state s (Stmt.execute N ndebug s log).log
    have hsc : Finalizer.scope N ndebug body thrown s log
        = ⟨.error e, (Stmt.finalize s (Stmt.execute N ndebug s log).log).s,
            (Stmt.finalize s (Stmt.execute N ndebug s log).log).log⟩ := by
      simp only [Finalizer.scope, hc]
    have hlog : (Stmt.finalize s (Stmt.execute N ndebug s log).log).log
        = (Stmt.execute N ndebug s log).log ++ [Call.finalize s.stmt] := by
      rw [hf.2, hp0]; rfl
    rw [hsc]
    refine ⟨by rw [hf.1]; rfl, by rw [hf.1]; rfl, by rw [hf.1]; rfl, ?_, ?_, ?_, ?_⟩
    · simp only [hf.1, hp0]; rfl
    · refine ⟨xadded ++ [Call.finalize s.stmt], ?_, ?_⟩
      · rw [hlog, x3, List.append_assoc]
      · rw [List.filter_append, filter_isFinalize_nil xadded x4]
        rfl
    · intro e1 he1
      injection he1 with he1
      subst he1
      exact ⟨rfl, hlog⟩
    · intro hok
      cases hok
  | ok u =>
    have hc := finalizer_ctor_ok N ndebug s log hx
    obtain ⟨b1, b2, badded, b3, b4⟩ :=
      probes_keep N ndebug body (Stmt.execute N ndebug s log).state
    have hb1 : (Probe.runAll N ndebug body (Stmt.execute N ndebug s log).state).1.ok = true :=
      (b1.trans x1).trans hp0
    have hb2 : (Probe.runAll N ndebug body (Stmt.execute N ndebug s log).state).1.stmt
        = s.stmt := b2.trans x2
    have hb3 : (Probe.runAll N ndebug body (Stmt.execute N ndebug s log).state).2
        = (Stmt.execute N ndebug s log).log ++ badded := b3
    have hf := finalize_state
      (Probe.runAll N ndebug body (Stmt.execute N ndebug s log).state).1
      (Probe.runAll N ndebug body (Stmt.execute N ndebug s log).state).2
    have hlog : (Stmt.finalize
          (Probe.runAll N ndebug body (Stmt.execute N ndebug s log).state).1
          (Probe.runAll N ndebug body (Stmt.execute N ndebug s log).state).2).log
        = (Probe.runAll N ndebug body (Stmt.execute N ndebug s log).state).2
            ++ [Call.finalize s.stmt] := by
      rw [hf.2, hb1, hb2]; rfl
    have hsc : Finalizer.scope N ndebug body thrown s log
        = ⟨(match thrown with
            | some e => .error e
            | none => .ok ()),
            (Stmt.finalize
              (Probe.runAll N ndebug body (Stmt.execute N ndebug s log).state).1
              (Probe.runAll N ndebug body (Stmt.execute N ndebug s log).state).2).s,
            (Stmt.finalize
              (Probe.runAll N ndebug body (Stmt.execute N ndebug s log).state).1
              (Probe.runAll N ndebug body (Stmt.execute N ndebug s log).state).2).log⟩ := by
      simp only [Finalizer.scope, hc, finalizer_dtor_eq, Outcome.state]
      cases thrown <;> rfl
    rw [hsc]
    refine ⟨by rw [hf.1]; rfl, by rw [hf.1]; rfl, by rw [hf.1]; rfl, ?_, ?_, ?_, ?_⟩
    · simp only [hf.1, hb1]; rfl
    · refine ⟨xadded ++ badded ++ [Call.finalize s.stmt], ?_, ?_⟩
      · rw [hlog, hb3, x3]
        simp only [List.append_assoc]
      · rw [List.filter_append, List.filter_append, filter_isFinalize_nil xadded x4,
          filter_isFinalize_nil badded b4]
        rfl
    · intro e1 he1
      cases he1
    · intro _
      exact ⟨rfl, hlog⟩

/-- Witness for C12: a guarded `SELECT`-like statement whose eager step yields a row; the
body reads column 0 and steps once more. -/
theorem finalizer_scope_releases_once_witness :
    (insertStmt false false).prepared = true ∧
    (Finalizer.scope (scripted [SQLITE_ROW] SQLITE_OK) false [.value 0, .next] none
      (insertStmt false false) []).res = .ok () ∧
    (Finalizer.scope (scripted [SQLITE_ROW] SQLITE_OK) false [.value 0, .next] none
      (insertStmt false false) []).log = [Call.step 7, Call.step 7, Call.finalize 7] ∧
    (Finalizer.scope (scripted [SQLITE_ROW] SQLITE_OK) false [.value 0, .next] none
      (insertStmt false false) []).s.prepared = false :=
  ⟨rfl, rfl, rfl,
    (finalizer_scope_releases_once (scripted [SQLITE_ROW] SQLITE_OK) false [.value 0, .next]
      none (insertStmt false false) [] rfl).1⟩

theorem getColumnCount_state (N : Native) (ndebug : Bool) (s : Stmt) (log : List Call) :
    (Stmt.getColumnCount N ndebug s log).s = s := by
  unfold Stmt.getColumnCount
  split
  · rfl
  · simp only
    split <;> rfl

theorem value_state (ndebug : Bool) (idx : Nat) (s : Stmt) (log : List Call) :
    (Stmt.value ndebug idx s log).s = s := by
  unfold Stmt.value
  split
  · rfl
  · split
    · rfl
    · split <;> rfl

theorem dataItr_bind_state (N : Native) (ndebug : Bool) (binds : List (Nat × BindValue))
    (t : Option Exception) (s : Stmt) (log : List Call) :
    (DataItr.bind N ndebug binds t s log).s = s := by
  induction binds generalizing s log with
  | nil => cases t <;> rfl
  | cons b rest ih =>
    unfold DataItr.bind
    simp only
    split
    · exact bind_state N ndebug b.1 b.2 s log
    · rw [ih, bind_state]

theorem loop_preserves (N : Native) (ndebug : Bool) (P : Stmt → Prop)
    (hnext : ∀ s log, P s → P (Stmt.next N ndebug s log).s)
    (dp : DataItr) (s : Stmt) (log : List Call) (h : P s) :
    P (Stmt.executeManyLoop N ndebug dp s log).s := by
  induction dp generalizing s log with
  | nil => rw [loop_nil]; exact h
  | cons ev rest ih =>
    cases ev with
    | nextThrows e => rw [Stmt.executeManyLoop]; exact h
    | record binds t =>
      have hx : P (Stmt.execute N ndebug (DataItr.bind N ndebug binds t s log).s
          (DataItr.bind N ndebug binds t s log).log).s := by
        rw [(execute_state N ndebug _ _).1, dataItr_bind_state]
        exact hnext s _ h
      cases hb : (DataItr.bind N ndebug binds t s log).res with
      | error e1 =>
        rw [loop_record_bind_error N ndebug binds t rest s log e1 hb]
        simp only
        rw [dataItr_bind_state]
        exact h
      | ok u =>
        cases hr : (Stmt.execute N ndebug (DataItr.bind N ndebug binds t s log).s
            (DataItr.bind N ndebug binds t s log).log).res with
        | error e2 =>
          rw [loop_record_execute_error N ndebug binds t rest s log e2 hb hr]
          exact hx
        | ok u2 =>
          rw [loop_record_ok N ndebug binds t rest s log hb hr]
          exact ih _ _ hx

theorem executeMany_preserves (N : Native) (ndebug : Bool) (P : Stmt → Prop)
    (hnext : ∀ s log, P s → P (Stmt.next N ndebug s log).s)
    (hfin : ∀ s log, P s → P (Stmt.finalize s log).s)
    (dp : DataItr) (aType : TransactionType) (s : Stmt) (log : List Call) (h : P s) :
    P (Stmt.executeMany N ndebug dp aType s log).s := by
  have hl := loop_preserves N ndebug P hnext dp s (log ++ [Call.trans_begin s.owner aType]) h
  unfold Stmt.executeMany
  simp only
  split
  · exact hl
  · split <;> exact hfin _ _ hl

/-- Every call on a statement preserves a property of the statement object that
`prepare()` establishes from any state and that `next()`, the clearing of the two row
flags by `reset()`, and `finalize()` preserve. -/
theorem op_preserves (N : Native) (ndebug : Bool) (P : Stmt → Prop)
    (hprep : ∀ s log, P (Stmt.prepare N s log).s)
    (hnext : ∀ s log, P s → P (Stmt.next N ndebug s log).s)
    (hreset : ∀ s, P s → P { s with result := false, done := false })
    (hfin : ∀ s log, P s → P (Stmt.finalize s log).s)
    (op : Op) (st : State) (h : P st.1) : P (Op.run N ndebug op st).1 := by
  cases op with
  | prepare => exact hprep _ _
  | bind i v =>
    show P (Stmt.bind N ndebug i v st.1 st.2).s
    rw [bind_state]; exact h
  | next => exact hnext _ _ h
  | execute =>
    show P (Stmt.execute N ndebug st.1 st.2).s
    rw [(execute_state N ndebug _ _).1]; exact hnext _ _ h
  | reset =>
    show P (Stmt.reset N ndebug st.1 st.2).s
    rw [reset_state]; exact hreset _ h
  | finalize => exact hfin _ _ h
  | getColumnCount =>
    show P (Stmt.getColumnCount N ndebug st.1 st.2).s
    rw [getColumnCount_state]; exact h
  | value i =>
    show P (Stmt.value ndebug i st.1 st.2).s
    rw [value_state]; exact h
  | executeMany dp aType => exact executeMany_preserves N ndebug P hnext hfin dp aType _ _ h
  | assign c =>
    show P (Stmt.assign N c st.1 st.2).s
    unfold Stmt.assign
    simp only [finalize_res]
    exact hprep _ _

theorem runAll_preserves (N : Native) (ndebug : Bool) (P : Stmt → Prop)
    (hprep : ∀ s log, P (Stmt.prepare N s log).s)
    (hnext : ∀ s log, P s → P (Stmt.next N ndebug s log).s)
    (hreset : ∀ s, P s → P { s with result := false, done := false })
    (hfin : ∀ s log, P s → P (Stmt.finalize s log).s)
    (ops : List Op) (st : State) (h : P st.1) : P (Op.runAll N ndebug ops st).1 := by
  induction ops generalizing st with
  | nil => exact h
  | cons op rest ih =>
    have h2 : Op.runAll N ndebug (op :: rest) st
        = Op.runAll N ndebug rest (Op.run N ndebug op st) := rfl
    rw [h2]
    exact ih _ (op_preserves N ndebug P hprep hnext hreset hfin op st h)

theorem reachable_preserves (N : Native) (ndebug : Bool) (P : Stmt → Prop)
    (hprep : ∀ s log, P (Stmt.prepare N s log).s)
    (hnext : ∀ s log, P s → P (Stmt.next N ndebug s log).s)
    (hreset : ∀ s, P s → P { s with result := false, done := false })
    (hfin : ∀ s log, P s → P (Stmt.finalize s log).s)
    (self aOwner : Nat) (aQuery : String) (log : List Call) (ops : List Op) :
    P (Op.runAll N ndebug ops (Stmt.ctor N self aOwner aQuery log).state).1 :=
  runAll_preserves N ndebug P hprep hnext hreset hfin ops _ (hprep _ _)

theorem prepare_state_cases (N : Native) (s : Stmt) (log : List Call) :
    ((N.sqlite3_prepare_v2 log s.owner s.query).1 = SQLITE_OK ∧
      (Stmt.prepare N s log).s.ok = true ∧
      (Stmt.prepare N s log).s.result = false ∧ (Stmt.prepare N s log).s.done = false ∧
      (Stmt.prepare N s log).s.stmt = (N.sqlite3_prepare_v2 log s.owner s.query).2.1) ∨
    ((N.sqlite3_prepare_v2 log s.owner s.query).1 ≠ SQLITE_OK ∧
      (Stmt.prepare N s log).s.ok = false ∧
      (Stmt.prepare N s log).s.result = false ∧ (Stmt.prepare N s log).s.done = false ∧
      (Stmt.prepare N s log).s.stmt = (N.sqlite3_prepare_v2 log s.owner s.query).2.1) := by
  by_cases h : (N.sqlite3_prepare_v2 log s.owner s.query).1 = SQLITE_OK
  · left
    rw [(prepare_success N s log h).2]
    exact ⟨h, rfl, rfl, rfl, rfl⟩
  · right
    rw [prepare_failure N s log h]
    exact ⟨h, rfl, rfl, rfl, rfl⟩

theorem next_state_cases (N : Native) (ndebug : Bool) (s : Stmt) (log : List Call) :
    (Stmt.next N ndebug s log).s = s ∨
    (s.done = false ∧ N.sqlite3_step log s.stmt = SQLITE_DONE ∧
      (ndebug = true ∨ s.ok = true) ∧
      (Stmt.next N ndebug s log).s = { s with done := true, result := false }) ∨
    (s.done = false ∧ N.sqlite3_step log s.stmt = SQLITE_ROW ∧
      (ndebug = true ∨ s.ok = true) ∧
      (Stmt.next N ndebug s log).s = { s with result := true }) := by
  cases hc : CHKTHROW ndebug s with
  | some e =>
    left
    rw [next_chk N ndebug s log e hc]
  | none =>
    have hb : ndebug = true ∨ s.ok = true := by
      cases hn : ndebug with
      | true => exact Or.inl rfl
      | false =>
        right
        cases hok : s.ok with
        | true => rfl
        | false =>
          rw [hn, chkthrow_unprepared s hok] at hc
          cases hc
    cases hd : s.done with
    | true =>
      left
      rw [next_done N ndebug s log hc hd]
    | false =>
      by_cases h1 : N.sqlite3_step log s.stmt = SQLITE_DONE
      · right; left
        rw [next_step_done N ndebug s log hc hd h1]
        exact ⟨rfl, h1, hb, rfl⟩
      · by_cases h2 : N.sqlite3_step log s.stmt = SQLITE_ROW
        · right; right
          rw [next_step_row N ndebug s log hc hd h2]
          exact ⟨rfl, h2, hb, by simp [hd]⟩
        · left
          rw [next_step_other N ndebug s log hc hd h1 h2]

theorem exclusive_reachable (N : Native) (ndebug : Bool) (self aOwner : Nat)
    (aQuery : String) (log : List Call) (ops : List Op) :
    ¬ ((Op.runAll N ndebug ops (Stmt.ctor N self aOwner aQuery log).state).1.result = true ∧
      (Op.runAll N ndebug ops (Stmt.ctor N self aOwner aQuery log).state).1.done = true) := by
  refine reachable_preserves N ndebug (fun s => ¬ (s.result = true ∧ s.done = true))
    ?_ ?_ ?_ ?_ self aOwner aQuery log ops
  · intro s log1
    rcases prepare_state_cases N s log1 with ⟨_, _, h, _⟩ | ⟨_, _, h, _⟩ <;>
      · rintro ⟨h1, _⟩
        rw [h] at h1
        cases h1
  · intro s log1 hs
    rcases next_state_cases N ndebug s log1 with h | ⟨_, _, _, h⟩ | ⟨hd, _, _, h⟩
    · rw [h]; exact hs
    · rw [h]
      rintro ⟨h1, _⟩
      cases h1
    · rw [h]
      rintro ⟨_, h2⟩
      have h3 : s.done = true := h2
      rw [hd] at h3
      cases h3
  · intro s _
    rintro ⟨h1, _⟩
    cases h1
  · intro s log1 _
    rintro ⟨h1, _⟩
    rw [(finalize_flags s log1).2.1] at h1
    cases h1

/-- C15: in every state reached from construction by any sequence of `prepare`, `bind`,
`next`, `execute`, `reset`, `finalize`, `getColumnCount`, `value`, `executeMany` (and
copy assignment) calls, whatever the native layer returns and whether the calls return or
throw, `hasRow` and `exhausted` are not both true; and after every successful `prepare()`
and every successful `reset()` both are false. (The copy constructor is the constructor
on the source's owner and query.) -/
theorem hasRow_exhausted_exclusive (N : Native) (ndebug : Bool) (self aOwner : Nat)
    (aQuery : String) (log : List Call) (ops : List Op) :
    ¬ ((Op.runAll N ndebug ops (Stmt.ctor N self aOwner aQuery log).state).1.hasRow = true ∧
      (Op.runAll N ndebug ops (Stmt.ctor N self aOwner aQuery log).state).1.exhausted
        = true) ∧
    (∀ s log1, (Stmt.prepare N s log1).res = .ok () →
      (Stmt.prepare N s log1).s.hasRow = false ∧
      (Stmt.prepare N s log1).s.exhausted = false) ∧
    (∀ s log1, (Stmt.reset N ndebug s log1).res = .ok () →
      (Stmt.reset N ndebug s log1).s.hasRow = false ∧
      (Stmt.reset N ndebug s log1).s.exhausted = false) ∧
    (∀ c, Stmt.copy N self c log = Stmt.ctor N self c.owner c.query log) := by
  refine ⟨exclusive_reachable N ndebug self aOwner aQuery log ops, ?_, ?_, fun _ => rfl⟩
  · intro s log1 h
    obtain ⟨_, h2, h3⟩ := prepare_ok_flags N s log1 h
    exact ⟨h2, h3⟩
  · intro s log1 _
    rw [reset_state]
    exact ⟨rfl, rfl⟩

/-- Witness for C15: a statement stepped to a row, stepped to the end, reset
successfully and put through a batch. -/
theorem hasRow_exhausted_exclusive_witness :
    (Stmt.reset (scripted [SQLITE_ROW] SQLITE_OK) false (insertStmt false true) []).res
      = .ok () ∧
    (Stmt.reset (scripted [SQLITE_ROW] SQLITE_OK) false (insertStmt false true) []).s.hasRow
      = false ∧
    (Op.runAll (scripted [SQLITE_ROW] SQLITE_OK) false
      [.next, .next, .next, .reset, .executeMany threeRecords .deferred]
      (Stmt.ctor (scripted [SQLITE_ROW] SQLITE_OK) 1000 1 "SELECT a FROM t" []).state).1
      = ⟨1000, 1, "SELECT a FROM t", "", 7, true, false, true⟩ ∧
    ¬ ((Op.runAll (scripted [SQLITE_ROW] SQLITE_OK) false
        [.next, .next, .next, .reset, .executeMany threeRecords .deferred]
        (Stmt.ctor (scripted [SQLITE_ROW] SQLITE_OK) 1000 1 "SELECT a FROM t" []).state).1.hasRow
          = true ∧
      (Op.runAll (scripted [SQLITE_ROW] SQLITE_OK) false
        [.next, .next, .next, .reset, .executeMany threeRecords .deferred]
        (Stmt.ctor (scripted [SQLITE_ROW] SQLITE_OK) 1000 1 "SELECT a FROM t" []).state).1.exhausted
          = true) :=
  ⟨rfl,
    ((hasRow_exhausted_exclusive (scripted [SQLITE_ROW] SQLITE_OK) false 1000 1
      "SELECT a FROM t" [] []).2.2.1 (insertStmt false true) [] rfl).1,
    rfl,
    (hasRow_exhausted_exclusive (scripted [SQLITE_ROW] SQLITE_OK) false 1000 1
      "SELECT a FROM t" []
      [.next, .next, .next, .reset, .executeMany threeRecords .deferred]).1⟩

theorem compiling_nullOnFailure (h : Nat) : (compiling h).NullOnFailure := by
  intro log ctx q hne
  simp only [compiling] at hne ⊢
  split_ifs at hne ⊢ with h1 h2 h3
  · rfl
  · rfl
  · exact absurd rfl hne
  · exact absurd rfl hne

theorem compiling_refusesNullStep (h : Nat) : (compiling h).RefusesNullStep := by
  intro log
  simp only [compiling, scripted, if_true]
  exact ⟨by decide, by decide⟩

theorem scripted_nullOnFailure (steps : List Int) (resetCode : Int) :
    (scripted steps resetCode).NullOnFailure := by
  intro log ctx q hne
  exact absurd rfl hne

theorem scripted_handleOnSuccess (steps : List Int) (resetCode : Int) :
    (scripted steps resetCode).HandleOnSuccess := by
  intro log ctx q _
  show (7 : Nat) ≠ NULL
  decide

theorem handle_reachable (N : Native) (ndebug : Bool) (h1 : N.NullOnFailure)
    (self aOwner : Nat) (aQuery : String) (log : List Call) (ops : List Op) :
    ((Op.runAll N ndebug ops (Stmt.ctor N self aOwner aQuery log).state).1.ok = false →
      (Op.runAll N ndebug ops (Stmt.ctor N self aOwner aQuery log).state).1.stmt = NULL) ∧
    (N.HandleOnSuccess →
      (Op.runAll N ndebug ops (Stmt.ctor N self aOwner aQuery log).state).1.ok = true →
      (Op.runAll N ndebug ops (Stmt.ctor N self aOwner aQuery log).state).1.stmt ≠ NULL) := by
  refine reachable_preserves N ndebug
    (fun s => (s.ok = false → s.stmt = NULL) ∧ (N.HandleOnSuccess → s.ok = true → s.stmt ≠ NULL))
    ?_ ?_ ?_ ?_ self aOwner aQuery log ops
  · intro s log1
    rcases prepare_state_cases N s log1 with ⟨hc, hok, _, _, hst⟩ | ⟨hc, hok, _, _, hst⟩
    · refine ⟨?_, ?_⟩
      · intro hf
        rw [hok] at hf
        cases hf
      · intro h2 _
        rw [hst]
        exact h2 log1 s.owner s.query hc
    · refine ⟨?_, ?_⟩
      · intro _
        rw [hst]
        exact h1 log1 s.owner s.query hc
      · intro _ ht
        rw [hok] at ht
        cases ht
  · intro s log1 hs
    obtain ⟨k1, k2, _⟩ := next_keeps N ndebug s log1
    rw [k1, k2]
    exact hs
  · intro s hs
    exact hs
  · intro s log1 hs
    have hf := (finalize_state s log1).1
    rw [hf]
    refine ⟨?_, ?_⟩
    · intro _
      show (if s.ok then NULL else s.stmt) = NULL
      cases hok : s.ok with
      | true => rfl
      | false => exact hs.1 hok
    · intro _ ht
      cases ht

/-- C16, counterexample: a statement constructed on a text without SQL (the empty
query), for which the native compile returns `SQLITE_OK` and stores a null handle. The
constructor returns, `prepared` is true and the handle is null. -/
theorem prepared_with_null_handle :
    (Stmt.ctor (compiling 7) 1000 1 "" []).res = .ok () ∧
    (Op.runAll (compiling 7) false [] (Stmt.ctor (compiling 7) 1000 1 "" []).state).1.prepared
      = true ∧
    (Op.runAll (compiling 7) false [] (Stmt.ctor (compiling 7) 1000 1 "" []).state).1.stmt
      = NULL ∧
    ¬ ((Op.runAll (compiling 7) false [] (Stmt.ctor (compiling 7) 1000 1 "" []).state).1.stmt
        ≠ NULL ↔
      (Op.runAll (compiling 7) false [] (Stmt.ctor (compiling 7) 1000 1 "" []).state).1.prepared
        = true) := by
  refine ⟨rfl, rfl, rfl, ?_⟩
  intro h
  exact h.mpr rfl rfl

/-- C16, amended: provided the native layer stores a null handle whenever its compile
fails, in every state reached from construction by any sequence of calls (`prepare`,
`bind`, `next`, `reset`, `finalize`, copy assignment and the others), whatever else the
native layer returns, an unprepared statement has a null handle, that is, a handle that
is not null implies `prepared`. The converse holds as far as the native layer stores a
handle that is not null on every successful compile: then the handle is not null if and
only if `prepared` is true. -/
theorem handle_tracks_prepared (N : Native) (ndebug : Bool) (self aOwner : Nat)
    (aQuery : String) (log : List Call) (ops : List Op) (h1 : N.NullOnFailure) :
    ((Op.runAll N ndebug ops (Stmt.ctor N self aOwner aQuery log).state).1.prepared = false →
      (Op.runAll N ndebug ops (Stmt.ctor N self aOwner aQuery log).state).1.stmt = NULL) ∧
    ((Op.runAll N ndebug ops (Stmt.ctor N self aOwner aQuery log).state).1.stmt ≠ NULL →
      (Op.runAll N ndebug ops (Stmt.ctor N self aOwner aQuery log).state).1.prepared = true) ∧
    (N.HandleOnSuccess →
      ((Op.runAll N ndebug ops (Stmt.ctor N self aOwner aQuery log).state).1.stmt ≠ NULL ↔
        (Op.runAll N ndebug ops (Stmt.ctor N self aOwner aQuery log).state).1.prepared
          = true)) := by
  obtain ⟨ha, hb⟩ := handle_reachable N ndebug h1 self aOwner aQuery log ops
  have hc : (Op.runAll N ndebug ops (Stmt.ctor N self aOwner aQuery log).state).1.stmt ≠ NULL →
      (Op.runAll N ndebug ops (Stmt.ctor N self aOwner aQuery log).state).1.ok = true := by
    intro hne
    cases hok : (Op.runAll N ndebug ops (Stmt.ctor N self aOwner aQuery log).state).1.ok with
    | true => rfl
    | false => exact absurd (ha hok) hne
  exact ⟨ha, hc, fun h2 => ⟨hc, hb h2⟩⟩

/-- Witness for C16: a statement whose second compile (by copy assignment from a
statement with a malformed query) fails, and a statement under a native layer that
always compiles to a handle. -/
theorem handle_tracks_prepared_witness :
    (compiling 7).NullOnFailure ∧
    (Op.runAll (compiling 7) false [.next, .assign ⟨2000, 1, "SELEC", "", 0, false, false, false⟩]
      (Stmt.ctor (compiling 7) 1000 1 "SELECT 1; SELECT 2" []).state).1
      = ⟨1000, 1, "SELEC", " SELECT 2", NULL, false, false, false⟩ ∧
    ((Op.runAll (compiling 7) false [.next, .assign ⟨2000, 1, "SELEC", "", 0, false, false, false⟩]
      (Stmt.ctor (compiling 7) 1000 1 "SELECT 1; SELECT 2" []).state).1.prepared = false →
     (Op.runAll (compiling 7) false [.next, .assign ⟨2000, 1, "SELEC", "", 0, false, false, false⟩]
      (Stmt.ctor (compiling 7) 1000 1 "SELECT 1; SELECT 2" []).state).1.stmt = NULL) ∧
    ((Op.runAll (scripted [] SQLITE_OK) true [.next, .finalize, .prepare]
        (Stmt.ctor (scripted [] SQLITE_OK) 1000 1 "SELECT 1" []).state).1.stmt ≠ NULL ↔
      (Op.runAll (scripted [] SQLITE_OK) true [.next, .finalize, .prepare]
        (Stmt.ctor (scripted [] SQLITE_OK) 1000 1 "SELECT 1" []).state).1.prepared = true) :=
  ⟨compiling_nullOnFailure 7, rfl,
    (handle_tracks_prepared (compiling 7) false 1000 1 "SELECT 1; SELECT 2" []
      [.next, .assign ⟨2000, 1, "SELEC", "", 0, false, false, false⟩]
      (compiling_nullOnFailure 7)).1,
    (handle_tracks_prepared (scripted [] SQLITE_OK) true 1000 1 "SELECT 1" []
      [.next, .finalize, .prepare] (scripted_nullOnFailure [] SQLITE_OK)).2.2
      (scripted_handleOnSuccess [] SQLITE_OK)⟩

theorem unprepared_flags_reachable (N : Native) (ndebug : Bool)
    (hN : ndebug = true → N.NullOnFailure ∧ N.RefusesNullStep)
    (self aOwner : Nat) (aQuery : String) (log : List Call) (ops : List Op) :
    (Op.runAll N ndebug ops (Stmt.ctor N self aOwner aQuery log).state).1.ok = false →
      (Op.runAll N ndebug ops (Stmt.ctor N self aOwner aQuery log).state).1.result = false ∧
      (Op.runAll N ndebug ops (Stmt.ctor N self aOwner aQuery log).state).1.done = false ∧
      (ndebug = true →
        (Op.runAll N ndebug ops (Stmt.ctor N self aOwner aQuery log).state).1.stmt = NULL) := by
  refine reachable_preserves N ndebug
    (fun s => s.ok = false →
      s.result = false ∧ s.done = false ∧ (ndebug = true → s.stmt = NULL))
    ?_ ?_ ?_ ?_ self aOwner aQuery log ops
  · intro s log1 hf
    rcases prepare_state_cases N s log1 with ⟨_, hok, _, _, _⟩ | ⟨hc, _, hr, hd, hst⟩
    · rw [hok] at hf
      cases hf
    · refine ⟨hr, hd, ?_⟩
      intro hn
      rw [hst]
      exact (hN hn).1 log1 s.owner s.query hc
  · intro s log1 hs
    rcases next_state_cases N ndebug s log1 with h | ⟨_, hst, hb, h⟩ | ⟨_, hst, hb, h⟩
    · rw [h]; exact hs
    · rw [h]
      intro hf
      have hf0 : s.ok = false := hf
      rcases hb with hn | hok
      · have hnull := (hs hf0).2.2 hn
        rw [hnull] at hst
        exact absurd hst ((hN hn).2 log1).2
      · rw [hok] at hf0
        cases hf0
    · rw [h]
      intro hf
      have hf0 : s.ok = false := hf
      rcases hb with hn | hok
      · have hnull := (hs hf0).2.2 hn
        rw [hnull] at hst
        exact absurd hst ((hN hn).2 log1).1
      · rw [hok] at hf0
        cases hf0
  · intro s hs hf
    exact ⟨rfl, rfl, (hs hf).2.2⟩
  · intro s log1 hs _
    have hf := (finalize_state s log1).1
    rw [hf]
    refine ⟨rfl, rfl, ?_⟩
    intro hn
    show (if s.ok then NULL else s.stmt) = NULL
    cases hok : s.ok with
    | true => rfl
    | false => exact (hs hok).2.2 hn

/-- C18: in every state reached from construction by any sequence of calls, `hasRow` or
`exhausted` being true implies `prepared`, so the three flags take one of the four
combinations unprepared, ready, on a row, exhausted. In a build without `NDEBUG` this
holds whatever the native layer returns. In a build with `NDEBUG`, where `next()` on an
unprepared statement reaches `sqlite3_step` with the null handle, it holds for a native
layer that stores a null handle on a failed compile and never reports a row or done for
the null handle, as the library does. -/
theorem flags_imply_prepared (N : Native) (ndebug : Bool) (self aOwner : Nat)
    (aQuery : String) (log : List Call) (ops : List Op)
    (hN : ndebug = true → N.NullOnFailure ∧ N.RefusesNullStep) :
    (((Op.runAll N ndebug ops (Stmt.ctor N self aOwner aQuery log).state).1.hasRow = true ∨
        (Op.runAll N ndebug ops (Stmt.ctor N self aOwner aQuery log).state).1.exhausted = true) →
      (Op.runAll N ndebug ops (Stmt.ctor N self aOwner aQuery log).state).1.prepared = true) ∧
    (((Op.runAll N ndebug ops (Stmt.ctor N self aOwner aQuery log).state).1.prepared = false ∧
        (Op.runAll N ndebug ops (Stmt.ctor N self aOwner aQuery log).state).1.hasRow = false ∧
        (Op.runAll N ndebug ops (Stmt.ctor N self aOwner aQuery log).state).1.exhausted = false) ∨
      ((Op.runAll N ndebug ops (Stmt.ctor N self aOwner aQuery log).state).1.prepared = true ∧
        (Op.runAll N ndebug ops (Stmt.ctor N self aOwner aQuery log).state).1.hasRow = false ∧
        (Op.runAll N ndebug ops (Stmt.ctor N self aOwner aQuery log).state).1.exhausted = false) ∨
      ((Op.runAll N ndebug ops (Stmt.ctor N self aOwner aQuery log).state).1.prepared = true ∧
        (Op.runAll N ndebug ops (Stmt.ctor N self aOwner aQuery log).state).1.hasRow = true ∧
        (Op.runAll N ndebug ops (Stmt.ctor N self aOwner aQuery log).state).1.exhausted = false) ∨
      ((Op.runAll N ndebug ops (Stmt.ctor N self aOwner aQuery log).state).1.prepared = true ∧
        (Op.runAll N ndebug ops (Stmt.ctor N self aOwner aQuery log).state).1.hasRow = false ∧
        (Op.runAll N ndebug ops (Stmt.ctor N self aOwner aQuery log).state).1.exhausted
          = true)) := by
  have hu := unprepared_flags_reachable N ndebug hN self aOwner aQuery log ops
  have hx := exclusive_reachable N ndebug self aOwner aQuery log ops
  simp only [Stmt.prepared, Stmt.hasRow, Stmt.exhausted]
  generalize (Op.runAll N ndebug ops (Stmt.ctor N self aOwner aQuery log).state).1 = s at hu hx
  cases hok : s.ok with
  | false =>
    obtain ⟨h1, h2, _⟩ := hu hok
    simp [h1, h2]
  | true =>
    cases hr : s.result <;> cases hd : s.done <;> simp [hr, hd] at hx ⊢

/-- Witness for C18: a build with `NDEBUG`, a constructor whose compile fails, then
`next()` on the unprepared statement, which the native layer refuses. -/
theorem flags_imply_prepared_witness :
    ((true = true) → (compiling 7).NullOnFailure ∧ (compiling 7).RefusesNullStep) ∧
    (Op.runAll (compiling 7) true [.next, .reset, .next]
      (Stmt.ctor (compiling 7) 1000 1 "SELEC" []).state).1
      = ⟨1000, 1, "SELEC", "", NULL, false, false, false⟩ ∧
    (((Op.runAll (compiling 7) true [.next, .reset, .next]
        (Stmt.ctor (compiling 7) 1000 1 "SELEC" []).state).1.hasRow = true ∨
      (Op.runAll (compiling 7) true [.next, .reset, .next]
        (Stmt.ctor (compiling 7) 1000 1 "SELEC" []).state).1.exhausted = true) →
      (Op.runAll (compiling 7) true [.next, .reset, .next]
        (Stmt.ctor (compiling 7) 1000 1 "SELEC" []).state).1.prepared = true) :=
  ⟨fun _ => ⟨compiling_nullOnFailure 7, compiling_refusesNullStep 7⟩, rfl,
    (flags_imply_prepared (compiling 7) true 1000 1 "SELEC" [] [.next, .reset, .next]
      (fun _ => ⟨compiling_nullOnFailure 7, compiling_refusesNullStep 7⟩)).1⟩

theorem loop_append (N : Native) (ndebug : Bool) (pre rest : DataItr) (s : Stmt)
    (log : List Call) (h : (Stmt.executeManyLoop N ndebug pre s log).res = .ok ()) :
    Stmt.executeManyLoop N ndebug (pre ++ rest) s log
      = Stmt.executeManyLoop N ndebug rest (Stmt.executeManyLoop N ndebug pre s log).s
          (Stmt.executeManyLoop N ndebug pre s log).log := by
  induction pre generalizing s log with
  | nil => rw [loop_nil]; rfl
  | cons ev pre1 ih =>
    cases h1 : (Stmt.executeManyLoop N ndebug [ev] s log).res with
    | error e1 =>
      rw [loop_cons_error N ndebug ev pre1 s log e1 h1, h1] at h
      cases h
    | ok u =>
      have h2 := loop_cons_ok N ndebug ev pre1 s log h1
      rw [h2] at h
      rw [List.cons_append, loop_cons_ok N ndebug ev (pre1 ++ rest) s log h1, ih _ _ h, h2]

theorem executeMany_of_loop_error (N : Native) (ndebug : Bool) (dp : DataItr)
    (aType : TransactionType) (s : Stmt) (log : List Call) (e : Exception)
    (h : (Stmt.executeManyLoop N ndebug dp s (log ++ [Call.trans_begin s.owner aType])).res
      = .error e) :
    Stmt.executeMany N ndebug dp aType s log
      = ⟨.error e,
          (Stmt.executeManyLoop N ndebug dp s (log ++ [Call.trans_begin s.owner aType])).s,
          (Stmt.executeManyLoop N ndebug dp s (log ++ [Call.trans_begin s.owner aType])).log
            ++ [Call.trans_rollback s.owner]⟩ := by
  simp only [Stmt.executeMany, h]

/-- C6: let the rounds of `pre` have completed inside `executeMany`, leaving the outcome
`a`. If the next round fails with `e`, whether the iterator's `next` throws `e`, or its
`bind` fails with `e`, or the bind succeeds and `execute()` fails with `e`, then
`executeMany` fails with that same `e`, whatever rounds `post` follow: the statement is
exactly as the failing call left it and the log is the log of the failing call plus the
rollback of the transaction, so no round of `post` is bound or executed. Whenever
`executeMany` fails, the `prepared` flag and the handle are as at entry and the native
calls added hold no `sqlite3_finalize` and no commit. -/
theorem executeMany_failure (N : Native) (ndebug : Bool) (pre post : DataItr)
    (aType : TransactionType) (s : Stmt) (log : List Call) (e : Exception)
    (a : Outcome Unit)
    (ha : a = Stmt.executeManyLoop N ndebug pre s (log ++ [Call.trans_begin s.owner aType]))
    (hpre : a.res = .ok ()) :
    Stmt.executeMany N ndebug (pre ++ ItrStep.nextThrows e :: post) aType s log
      = ⟨.error e, a.s, a.log ++ [Call.trans_rollback s.owner]⟩ ∧
    (∀ binds t, (DataItr.bind N ndebug binds t a.s a.log).res = .error e →
      Stmt.executeMany N ndebug (pre ++ ItrStep.record binds t :: post) aType s log
        = ⟨.error e, (DataItr.bind N ndebug binds t a.s a.log).s,
            (DataItr.bind N ndebug binds t a.s a.log).log
              ++ [Call.trans_rollback s.owner]⟩) ∧
    (∀ binds t, (DataItr.bind N ndebug binds t a.s a.log).res = .ok () →
      (Stmt.execute N ndebug (DataItr.bind N ndebug binds t a.s a.log).s
        (DataItr.bind N ndebug binds t a.s a.log).log).res = .error e →
      Stmt.executeMany N ndebug (pre ++ ItrStep.record binds t :: post) aType s log
        = ⟨.error e,
            (Stmt.execute N ndebug (DataItr.bind N ndebug binds t a.s a.log).s
              (DataItr.bind N ndebug binds t a.s a.log).log).s,
            (Stmt.execute N ndebug (DataItr.bind N ndebug binds t a.s a.log).s
              (DataItr.bind N ndebug binds t a.s a.log).log).log
              ++ [Call.trans_rollback s.owner]⟩) ∧
    (∀ (dp : DataItr) (e1 : Exception),
      (Stmt.executeMany N ndebug dp aType s log).res = .error e1 →
      (Stmt.executeMany N ndebug dp aType s log).s.prepared = s.prepared ∧
      (Stmt.executeMany N ndebug dp aType s log).s.stmt = s.stmt ∧
      ∃ added, (Stmt.executeMany N ndebug dp aType s log).log = log ++ added ∧
        ∀ c ∈ added, c.isFinalize = false ∧ c.isCommit = false) := by
  subst ha
  have happ : ∀ rest, Stmt.executeManyLoop N ndebug (pre ++ rest) s
      (log ++ [Call.trans_begin s.owner aType])
      = Stmt.executeManyLoop N ndebug rest
          (Stmt.executeManyLoop N ndebug pre s (log ++ [Call.trans_begin s.owner aType])).s
          (Stmt.executeManyLoop N ndebug pre s (log ++ [Call.trans_begin s.owner aType])).log :=
    fun rest => loop_append N ndebug pre rest s _ hpre
  refine ⟨?_, ?_, ?_, ?_⟩
  · have hl : Stmt.executeManyLoop N ndebug (pre ++ ItrStep.nextThrows e :: post) s
        (log ++ [Call.trans_begin s.owner aType])
        = ⟨.error e,
            (Stmt.executeManyLoop N ndebug pre s
              (log ++ [Call.trans_begin s.owner aType])).s,
            (Stmt.executeManyLoop N ndebug pre s
              (log ++ [Call.trans_begin s.owner aType])).log⟩ := by
      rw [happ, Stmt.executeManyLoop]
    rw [executeMany_of_loop_error N ndebug _ aType s log e (by rw [hl]), hl]
  · intro binds t hb
    have hl := loop_record_bind_error N ndebug binds t post _ _ e hb
    rw [← happ] at hl
    rw [executeMany_of_loop_error N ndebug _ aType s log e (by rw [hl]), hl]
  · intro binds t hb hx
    have hl := loop_record_execute_error N ndebug binds t post _ _ e hb hx
    rw [← happ] at hl
    rw [executeMany_of_loop_error N ndebug _ aType s log e (by rw [hl]), hl]
  · intro dp e1 h
    obtain ⟨_, _, _, _, _, _, _, _, _, _, _, _, h1, h2, h3⟩ :=
      executeMany_error_split N ndebug dp aType s log e1 h
    exact ⟨h1, h2, h3⟩

/-- Witness for C6: three records; the first executes and yields a row, the second is
bound and its `execute()` fails on a native step error. The batch fails with that error
after the second step, without binding the third record, finalizing or committing. -/
theorem executeMany_failure_witness :
    (Stmt.executeManyLoop (scripted [SQLITE_ROW, 5] SQLITE_OK) false
      [.record [(1, .int 10)] none] (insertStmt false false)
      ([] ++ [Call.trans_begin (insertStmt false false).owner .immediate])).res = .ok () ∧
    Stmt.executeMany (scripted [SQLITE_ROW, 5] SQLITE_OK) false threeRecords .immediate
        (insertStmt false false) []
      = ⟨.error (.ofCtx 1 "native error"), insertStmt true false,
          [Call.trans_begin 1 .immediate, Call.bind 7 1 (.int 10), Call.step 7,
            Call.bind 7 1 (.int 20), Call.step 7, Call.trans_rollback 1]⟩ :=
  ⟨rfl,
    (executeMany_failure (scripted [SQLITE_ROW, 5] SQLITE_OK) false
      [.record [(1, .int 10)] none] [.record [(1, .int 30)] none] .immediate
      (insertStmt false false) [] (.ofCtx 1 "native error") _ rfl rfl).2.2.1
      [(1, .int 20)] none rfl rfl⟩

end SQLite
